import Mathlib

/-!
Verification of the ReviewScraper pipeline against its specification.

The definitions below are a shallow embedding of the TypeScript sources:
  * `src/labeler/src/labeler.ts`   (ReviewLabeler: labelReviews, labelBatch, sanitization)
  * `src/labeler/src/worker.ts`    (LabelerWorker: processLabelingJob, averageConfidence)
  * the scraper worker            (ScraperWorker: processScrapingJob,
                                   fetchReviewsForCountry, ensureAppInDatabase,
                                   saveReviewsToDatabase)
  * `src/shared/src/queue/types.ts`      (job payload schemas, validateJobPayload)
  * `src/shared/src/queue/deadletter.ts` (DeadLetterQueueManager)
  * `src/shared/src/health/checker.ts`   (HealthMonitor.checkHealth aggregation)

External effects (the app-store catalog, the OpenAI API, the SQL database and
the Redis broker) are modelled as explicit oracles / explicit state threaded
through the functions, so every definition stays executable.  JavaScript
truthiness coercions (`x || d`) are modelled by dedicated helpers so that the
semantics of `0 || d`, `'' || d` and `NaN || d` are preserved exactly.
-/

namespace ReviewScraper

/-! ## JavaScript coercion helpers -/

/-- JS `s || d` on an optional string (`undefined`, `null` and `""` are falsy). -/
def jsOrStr (s : Option String) (d : String) : String :=
  match s with
  | none => d
  | some s => if s = "" then d else s

/-- JS `n || d` on an optional integer (`undefined`, `NaN` and `0` are falsy);
`none` stands for a missing value or a `parseInt`/`parseFloat` result of `NaN`. -/
def jsOrInt (n : Option Int) (d : Int) : Int :=
  match n with
  | none => d
  | some n => if n = 0 then d else n

/-- JS `q || d` on an optional rational (numeric): `0` and `NaN` are falsy. -/
def jsOrRat (q : Option ℚ) (d : ℚ) : ℚ :=
  match q with
  | none => d
  | some q => if q = 0 then d else q

/-- JS `n || d` on an optional natural number option field. -/
def jsOrNat (n : Option Nat) (d : Nat) : Nat :=
  match n with
  | none => d
  | some n => if n = 0 then d else n

/-- JS `Math.round`: rounds half away from zero toward positive infinity,
`Math.round x = ⌊x + 1/2⌋`. -/
def jsRound (q : ℚ) : ℤ := ⌊q + 1/2⌋

/-! ## Labeler data model (`labeler.ts`) -/

/-- A label as returned (after sanitization) by `ReviewLabeler.labelBatch`;
mirrors the `LabelResult` interface.  `sentiment` is kept as a raw string and
`confidence` as an exact rational. -/
structure LabelResult where
  reviewId : String
  theme : String
  sentiment : String
  severity : Int
  featureRequest : Bool
  directQuote : String
  confidence : ℚ
  modelVersion : String
  deriving Repr, DecidableEq

/-- One entry of the JSON array returned by the LLM, before sanitization.
`none` in a numeric field models a missing value or a `NaN` parse result. -/
structure RawLabel where
  reviewId : Option String
  theme : Option String
  sentiment : Option String
  severity : Option Int
  featureRequest : Bool
  directQuote : Option String
  confidence : Option ℚ
  deriving Repr, DecidableEq

/-- The static taxonomy embedded in `ReviewLabeler.getDefaultTaxonomy`
(theme names only; the descriptions play no role in sanitization). -/
def getDefaultTaxonomy : List String :=
  ["UI/UX Design", "Performance", "Features", "Bugs/Errors", "Authentication",
   "Data/Sync", "Pricing", "Customer Support", "General Feedback"]

/-- The per-label sanitization step of `ReviewLabeler.labelBatch`
(`labeler.ts` lines 190–200), applied to each entry of the parsed array:

  * `reviewId: result.reviewId || ''`
  * `theme: result.theme || 'General Feedback'`
  * `sentiment` kept only if it is one of the three enum strings, else `neutral`
  * `severity: Math.max(1, Math.min(5, parseInt(result.severity) || 1))`
  * `featureRequest: Boolean(result.featureRequest)`
  * `directQuote: (result.directQuote || '').slice(0, 100)`
  * `confidence: Math.max(0, Math.min(1, parseFloat(result.confidence) || 0.5))`
  * `modelVersion: config.model` -/
def sanitizeRaw (model : String) (r : RawLabel) : LabelResult :=
  { reviewId := jsOrStr r.reviewId ""
    theme := jsOrStr r.theme "General Feedback"
    sentiment :=
      match r.sentiment with
      | some s => if s = "positive" ∨ s = "neutral" ∨ s = "negative" then s else "neutral"
      | none => "neutral"
    severity := max 1 (min 5 (jsOrInt r.severity 1))
    featureRequest := r.featureRequest
    directQuote := (jsOrStr r.directQuote "").take 100
    confidence := max 0 (min 1 (jsOrRat r.confidence 0.5))
    modelVersion := model }

/-- View an already-produced `LabelResult` as the raw JS object that the
sanitization map would receive if it were applied a second time: every field
is present, so optional fields are wrapped in `some`. -/
def LabelResult.toRaw (l : LabelResult) : RawLabel :=
  { reviewId := some l.reviewId
    theme := some l.theme
    sentiment := some l.sentiment
    severity := some l.severity
    featureRequest := l.featureRequest
    directQuote := some l.directQuote
    confidence := some l.confidence }

/-- Re-applying the sanitization step of `labelBatch` to a label it already
produced (same `config.model`). -/
def sanitizeAgain (model : String) (l : LabelResult) : LabelResult :=
  sanitizeRaw model l.toRaw

/-- The claim's notion of an already-sanitized label: theme in the taxonomy or
the fallback, sentiment in the enum, severity an integer in `[1,5]`, quote at
most 100 characters, confidence in `[0,1]` (`featureRequest` is a `Bool` by
typing). -/
def Sanitized (l : LabelResult) : Prop :=
  (l.theme ∈ getDefaultTaxonomy ∨ l.theme = "General Feedback") ∧
  (l.sentiment = "positive" ∨ l.sentiment = "neutral" ∨ l.sentiment = "negative") ∧
  1 ≤ l.severity ∧ l.severity ≤ 5 ∧
  l.directQuote.length ≤ 100 ∧
  0 ≤ l.confidence ∧ l.confidence ≤ 1

instance (l : LabelResult) : Decidable (Sanitized l) := by
  unfold Sanitized; infer_instance

/-! ## Reviews and the labeling job (`worker.ts`, `labeler.ts`) -/

/-- A normalized review, mirroring the shared `Review` type.  Instants are
modelled as naturals (milliseconds since the epoch). -/
structure Review where
  id : String
  userName : String
  userUrl : Option String
  version : String
  score : Int
  title : String
  text : String
  url : Option String
  date : Nat
  replyDate : Option Nat
  replyText : Option String
  helpfulVotes : Int
  country : String
  deriving Repr, DecidableEq

/-- Fuel-guarded worker for `chunkList`; the fuel is an upper bound on the
list length, so the exhaustion branch is never taken at the call site. -/
def chunkListGo (n : Nat) : Nat → List α → List (List α)
  | _, [] => []
  | 0, _ :: _ => []
  | fuel + 1, x :: xs => (x :: xs).take n :: chunkListGo n fuel ((x :: xs).drop n)

/-- The batching loop of `labelReviews` and `saveReviewsToDatabase`:
`slice(i, i + batchSize)` for `i = 0, batchSize, 2·batchSize, …`.  A batch
size of `0` would loop forever in the JS source (the payload schema guarantees
`batchSize ≥ 1`); it is mapped to a single batch here. -/
def chunkList (n : Nat) (l : List α) : List (List α) :=
  if n = 0 then if l.isEmpty then [] else [l]
  else chunkListGo n l.length l

/-- Outcome of one LLM call in `labelBatch`: the call itself may throw, the
content may be empty, `JSON.parse` may fail, the parsed value may not contain
an array, or an array of raw label objects is obtained. -/
inductive LLMOutcome
  | apiError
  | emptyContent
  | badJson
  | notArray
  | ok (labels : List RawLabel)
  deriving Repr, DecidableEq

/-- `ReviewLabeler.labelBatch` for one batch: every non-`ok` outcome is
(re)thrown (`labeler.ts` lines 168–187, 205–208); on success each entry of the
returned array is sanitized. -/
def labelBatch (model : String) (out : LLMOutcome) : Except Unit (List LabelResult) :=
  match out with
  | .ok raws => .ok (raws.map (sanitizeRaw model))
  | _ => .error ()

/-- The fallback label fabricated by the `catch` branch of
`ReviewLabeler.labelReviews` (lines 99–110) for one review of a failed batch. -/
def defaultLabel (model : String) (reviewId : String) : LabelResult :=
  { reviewId := reviewId
    theme := "General Feedback"
    sentiment := "neutral"
    severity := 1
    featureRequest := false
    directQuote := ""
    confidence := 0
    modelVersion := model }

/-- The worker's loop over the prepared batches: batch `i` is sent to the LLM
(`orc i` is the outcome of that call); a thrown batch is replaced by fallback
labels for each of its reviews and processing continues with the next batch. -/
def labelBatchesGo (orc : Nat → LLMOutcome) (model : String) (i : Nat) :
    List (List Review) → List LabelResult
  | [] => []
  | b :: bs =>
    (match labelBatch model (orc i) with
     | .ok rs => rs
     | .error _ => b.map (fun r => defaultLabel model r.id)) ++
    labelBatchesGo orc model (i + 1) bs

/-- `ReviewLabeler.labelReviews`: batch the reviews, label each batch,
fabricate defaults for batches whose LLM call failed. -/
def labelReviews (orc : Nat → LLMOutcome) (model : String) (batchSize : Nat)
    (reviews : List Review) : List LabelResult :=
  labelBatchesGo orc model 0 (chunkList batchSize reviews)

/-- `LabelerWorker.calculateAverageConfidence`:
`Math.round((total / results.length) * 100) / 100`, `0` for an empty list. -/
def calculateAverageConfidence (results : List LabelResult) : ℚ :=
  if results.length = 0 then 0
  else (jsRound ((results.map (·.confidence)).sum / results.length * 100) : ℚ) / 100

/-- Environment of one LABEL job: the reviews the database resolves for the
requested ids, and the outcome of each LLM batch call. -/
structure LabelJobEnv where
  foundReviews : List Review
  llm : Nat → LLMOutcome

/-- The fields of the `JobResult` returned by
`LabelerWorker.processLabelingJob` that the claims mention. -/
structure LabelJobResult where
  success : Bool
  reviewsProcessed : Nat
  averageConfidence : ℚ
  itemsProcessed : Nat
  deriving Repr, DecidableEq

/-- `LabelerWorker.processLabelingJob`: throws (caught into a `success=false`
result) when no review resolves; otherwise labels the found reviews and
reports `success=true` with the average confidence. -/
def processLabelingJob (env : LabelJobEnv) (batchSize : Nat) (model : String) :
    LabelJobResult :=
  if env.foundReviews = [] then
    { success := false, reviewsProcessed := 0, averageConfidence := 0, itemsProcessed := 0 }
  else
    let rs := labelReviews env.llm model batchSize env.foundReviews
    { success := true
      reviewsProcessed := rs.length
      averageConfidence := calculateAverageConfidence rs
      itemsProcessed := rs.length }

/-! ### Lemmas about batching -/

theorem chunkListGo_flatten (n : Nat) (hn : 1 ≤ n) :
    ∀ (fuel : Nat) (l : List α), l.length ≤ fuel →
      (chunkListGo n fuel l).flatten = l := by
  intro fuel
  induction fuel with
  | zero =>
    intro l hl
    cases l with
    | nil => rfl
    | cons x xs => simp at hl
  | succ fuel ih =>
    intro l hl
    cases l with
    | nil => rfl
    | cons x xs =>
      simp only [chunkListGo, List.flatten_cons]
      rw [ih ((x :: xs).drop n) (by simp only [List.length_drop, List.length_cons] at *; omega)]
      exact List.take_append_drop _ _

theorem chunkList_flatten (n : Nat) (l : List α) : (chunkList n l).flatten = l := by
  unfold chunkList
  by_cases hn : n = 0
  · subst hn
    cases l <;> simp
  · rw [if_neg hn]
    exact chunkListGo_flatten n (by omega) l.length l le_rfl

/-- A parse-failure outcome makes `labelBatch` throw. -/
theorem labelBatch_error (model : String) (out : LLMOutcome)
    (h : out = .badJson ∨ out = .notArray) : labelBatch model out = .error () := by
  rcases h with h | h <;> subst h <;> rfl

theorem labelBatchesGo_all_failed (orc : Nat → LLMOutcome) (model : String)
    (bs : List (List Review))
    (h : ∀ i, orc i = .badJson ∨ orc i = .notArray) (i : Nat) :
    labelBatchesGo orc model i bs = bs.flatten.map (fun r => defaultLabel model r.id) := by
  induction bs generalizing i with
  | nil => rfl
  | cons b bs ih =>
    simp only [labelBatchesGo, labelBatch_error model (orc i) (h i), List.flatten_cons,
      List.map_append, ih (i + 1)]

theorem sum_confidence_default (model : String) (rs : List Review) :
    ((rs.map (fun r => defaultLabel model r.id)).map (·.confidence)).sum = 0 := by
  induction rs with
  | nil => rfl
  | cons r rs ih => simpa [defaultLabel] using ih

/-- C4: for every LABEL job, a batch whose LLM response fails JSON parsing or
does not contain an array is replaced by one fabricated default label per
review of that batch (theme "General Feedback", neutral sentiment, severity 1,
no feature request, empty quote, confidence 0, the configured model version),
and processing continues; when every batch fails this way the job still
reports `success = true` and the average confidence is `0`. -/
theorem label_job_fallback_defaults (env : LabelJobEnv) (batchSize : Nat)
    (model : String)
    (hfail : ∀ i, env.llm i = .badJson ∨ env.llm i = .notArray)
    (hne : env.foundReviews ≠ []) :
    labelReviews env.llm model batchSize env.foundReviews
        = env.foundReviews.map (fun r => defaultLabel model r.id) ∧
    (∀ lab ∈ labelReviews env.llm model batchSize env.foundReviews,
        lab.theme = "General Feedback" ∧ lab.sentiment = "neutral" ∧
        lab.severity = 1 ∧ lab.featureRequest = false ∧ lab.directQuote = "" ∧
        lab.confidence = 0 ∧ lab.modelVersion = model) ∧
    (processLabelingJob env batchSize model).success = true ∧
    (processLabelingJob env batchSize model).averageConfidence = 0 := by
  have hlr : labelReviews env.llm model batchSize env.foundReviews
      = env.foundReviews.map (fun r => defaultLabel model r.id) := by
    unfold labelReviews
    rw [labelBatchesGo_all_failed env.llm model _ hfail 0, chunkList_flatten]
  refine ⟨hlr, ?_, ?_, ?_⟩
  · intro lab hmem
    rw [hlr] at hmem
    obtain ⟨r, _, rfl⟩ := List.mem_map.mp hmem
    exact ⟨rfl, rfl, rfl, rfl, rfl, rfl, rfl⟩
  · simp [processLabelingJob, hne]
  · simp only [processLabelingJob, if_neg hne]
    rw [hlr, calculateAverageConfidence]
    have hlen : (env.foundReviews.map (fun r => defaultLabel model r.id)).length ≠ 0 := by
      simpa using fun h => hne (List.eq_nil_of_length_eq_zero h)
    rw [if_neg hlen, sum_confidence_default]
    norm_num [jsRound]

/-- Concrete instance of `label_job_fallback_defaults`: two reviews, one batch
whose response is malformed JSON. -/
theorem label_job_fallback_defaults_witness :
    (processLabelingJob
        ⟨[{ id := "r1", userName := "u", userUrl := none, version := "1", score := 5,
            title := "", text := "t", url := none, date := 0, replyDate := none,
            replyText := none, helpfulVotes := 0, country := "US" }],
          fun _ => .badJson⟩ 20 "gpt-4o-mini").success = true := by
  have h := label_job_fallback_defaults
    ⟨[{ id := "r1", userName := "u", userUrl := none, version := "1", score := 5,
        title := "", text := "t", url := none, date := 0, replyDate := none,
        replyText := none, helpfulVotes := 0, country := "US" }],
      fun _ => .badJson⟩ 20 "gpt-4o-mini"
    (fun _ => Or.inl rfl) (by decide)
  exact h.2.2.1

/-! ### Sanitization: idempotence (C5) and taxonomy validation (C6) -/

theorem taxonomy_entries_nonempty : ∀ t ∈ getDefaultTaxonomy, t ≠ "" := by decide

/-- C5 counterexample: the fallback label itself (confidence `0`) satisfies the
claim's notion of "already sanitized", yet re-applying the sanitization step
changes its confidence to `0.5` because `parseFloat(0) || 0.5` evaluates the
JS default: sanitization is not idempotent as claimed. -/
theorem sanitize_not_idempotent :
    Sanitized (defaultLabel "gpt-4o-mini" "r1") ∧
    sanitizeAgain "gpt-4o-mini" (defaultLabel "gpt-4o-mini" "r1")
        ≠ defaultLabel "gpt-4o-mini" "r1" ∧
    (sanitizeAgain "gpt-4o-mini" (defaultLabel "gpt-4o-mini" "r1")).confidence
        = 1/2 := by
  have hconf : (sanitizeAgain "gpt-4o-mini" (defaultLabel "gpt-4o-mini" "r1")).confidence
      = 1/2 := by
    simp only [sanitizeAgain, sanitizeRaw, LabelResult.toRaw, defaultLabel, jsOrRat]
    rw [if_pos trivial, min_eq_right (by norm_num : (0.5 : ℚ) ≤ 1),
      max_eq_right (by norm_num : (0 : ℚ) ≤ 0.5)]
    norm_num
  refine ⟨by decide, ?_, hconf⟩
  intro h
  have h2 := congrArg LabelResult.confidence h
  rw [hconf] at h2
  simp only [defaultLabel] at h2
  norm_num at h2

/-- C5 amended: sanitization is idempotent on every already-sanitized label
whose confidence is nonzero and whose `modelVersion` matches the configured
model (both exceptions forced by the source: `parseFloat(c) || 0.5` turns a
stored confidence of exactly `0` into `0.5`, and `modelVersion` is
unconditionally overwritten with `config.model`). -/
theorem sanitize_idempotent (model : String) (l : LabelResult)
    (hs : Sanitized l) (hc : l.confidence ≠ 0) (hm : l.modelVersion = model) :
    sanitizeAgain model l = l := by
  obtain ⟨hth, hsen, hsev1, hsev5, hq, hc0, hc1⟩ := hs
  have hthne : l.theme ≠ "" := by
    rcases hth with h | h
    · exact taxonomy_entries_nonempty _ h
    · rw [h]; decide
  have hsevne : l.severity ≠ 0 := by omega
  cases l with
  | mk rid th sen sev fr dq conf mv =>
    simp only at hthne hsen hsev1 hsev5 hq hc hc0 hc1 hsevne hm
    unfold sanitizeAgain sanitizeRaw LabelResult.toRaw
    simp only [jsOrStr, jsOrInt, jsOrRat, if_neg hthne, if_neg hsevne, if_neg hc,
      if_pos hsen]
    have h1 : max 1 (min 5 sev) = sev := by omega
    have h2 : max 0 (min 1 conf) = conf := by
      rw [min_eq_right hc1, max_eq_right hc0]
    have h3 : (if dq = "" then "" else dq).take 100 = dq := by
      by_cases h : dq = ""
      · subst h
        apply String.ext
        rw [String.data_take]
        rfl
      · rw [if_neg h]
        apply String.ext
        rw [String.data_take]
        exact List.take_of_length_le hq
    have h4 : (if rid = "" then "" else rid) = rid := by
      by_cases h : rid = "" <;> simp [h]
    rw [h1, h2, h3, h4, hm]

/-- Concrete instance of `sanitize_idempotent` at a sanitized label with
nonzero confidence. -/
theorem sanitize_idempotent_witness :
    sanitizeAgain "gpt-4o-mini"
        { reviewId := "r1", theme := "Performance", sentiment := "negative",
          severity := 4, featureRequest := true, directQuote := "slow",
          confidence := 9/10, modelVersion := "gpt-4o-mini" }
      = { reviewId := "r1", theme := "Performance", sentiment := "negative",
          severity := 4, featureRequest := true, directQuote := "slow",
          confidence := 9/10, modelVersion := "gpt-4o-mini" } :=
  sanitize_idempotent "gpt-4o-mini" _
    ⟨by decide, by decide, by decide, by decide, by decide, by norm_num, by norm_num⟩
    (by norm_num) rfl

/-- C6: the sanitization step does not validate the theme against the
taxonomy.  On the repository's own test input (`labeler.test.ts`, "should
validate and clean up result data", which expects the fallback
"General Feedback"), the non-taxonomy theme "Invalid Theme" is kept verbatim
because `result.theme || 'General Feedback'` only replaces falsy themes. -/
theorem sanitize_keeps_nontaxonomy_theme :
    (sanitizeRaw "gpt-4o-mini"
        { reviewId := some "review-1", theme := some "Invalid Theme",
          sentiment := some "invalid-sentiment", severity := some 10,
          featureRequest := true, directQuote := some "q",
          confidence := some (5/2) }).theme = "Invalid Theme" ∧
    "Invalid Theme" ∉ getDefaultTaxonomy ∧
    "Invalid Theme" ≠ "General Feedback" := by
  refine ⟨?_, by decide, by decide⟩
  rfl

/-! ## Health monitor (`checker.ts`) -/

/-- The three-valued dependency status of `HealthStatus` in `health/types.ts`. -/
inductive HealthStatus
  | healthy
  | degraded
  | unhealthy
  deriving Repr, DecidableEq

instance {ε α : Type _} [DecidableEq ε] [DecidableEq α] : DecidableEq (Except ε α)
  | .error e₁, .error e₂ =>
    if h : e₁ = e₂ then .isTrue (by rw [h])
    else .isFalse (fun hh => h (Except.error.inj hh))
  | .error _, .ok _ => .isFalse (fun hh => Except.noConfusion hh)
  | .ok _, .error _ => .isFalse (fun hh => Except.noConfusion hh)
  | .ok a₁, .ok a₂ =>
    if h : a₁ = a₂ then .isTrue (by rw [h])
    else .isFalse (fun hh => h (Except.ok.inj hh))

/-- What `checkHealth` observes for one registered checker: its `critical`
option and either the returned status (`.ok`) or a throw / per-check timeout
(`.error`). -/
structure CheckObs where
  critical : Bool
  outcome : Except Unit HealthStatus
  deriving Repr, DecidableEq

/-- The update of `overallStatus` performed for one check inside
`HealthMonitor.checkHealth` (`checker.ts` lines 168–202): a returned status
raises the aggregate to `unhealthy` only for critical checks, to `degraded`
only from `healthy`; a thrown or timed-out check raises it to `unhealthy`
only when the check is critical. -/
def stepStatus (acc : HealthStatus) (c : CheckObs) : HealthStatus :=
  match c.outcome with
  | .ok s =>
    if c.critical = true ∧ s = .unhealthy then .unhealthy
    else if s = .degraded ∧ acc = .healthy then .degraded
    else acc
  | .error _ => if c.critical then .unhealthy else acc

/-- The aggregate status computed by `checkHealth` over all registered
checks, starting from `healthy`.  (The JS code updates a shared variable from
concurrently resolving promises; the update is order-independent — see
`overallStatus_characterization` — so a fold over the registration order is a
faithful model.) -/
def overallStatus (cs : List CheckObs) : HealthStatus :=
  cs.foldl stepStatus .healthy

/-- A check that forces the aggregate to `unhealthy`: critical and either
thrown/timed out or reporting `unhealthy`. -/
def criticalBad (c : CheckObs) : Bool :=
  c.critical &&
    (match c.outcome with
     | .error _ => true
     | .ok s => s = .unhealthy)

/-- A check whose returned status is `degraded`. -/
def reportsDegraded (c : CheckObs) : Bool :=
  match c.outcome with
  | .ok s => s = .degraded
  | .error _ => false

theorem foldl_stepStatus_char (cs : List CheckObs) (acc : HealthStatus) :
    cs.foldl stepStatus acc =
      if cs.any criticalBad then .unhealthy
      else if acc = .unhealthy then .unhealthy
      else if acc = .degraded then .degraded
      else if cs.any reportsDegraded then .degraded
      else .healthy := by
  induction cs generalizing acc with
  | nil => cases acc <;> simp
  | cons c cs ih =>
    rw [List.foldl_cons, ih (stepStatus acc c)]
    rcases c with ⟨crit, out⟩
    rcases out with u | s
    · cases crit <;> cases acc <;>
        simp [stepStatus, criticalBad, reportsDegraded, List.any_cons]
    · cases crit <;> cases s <;> cases acc <;>
        simp [stepStatus, criticalBad, reportsDegraded, List.any_cons]

/-- C10: in `checkHealth`, non-critical checks never force the aggregate to
`unhealthy`; the aggregate is `unhealthy` exactly when some critical check is
unhealthy or throws/times out, `degraded` exactly when no such critical check
exists but some check reports `degraded`; in particular a service whose only
non-healthy dependencies are non-critical checks that report `unhealthy` or
throw still reports `healthy` overall. -/
theorem overallStatus_characterization (cs : List CheckObs) :
    (overallStatus cs = .unhealthy ↔ ∃ c ∈ cs, criticalBad c = true) ∧
    (overallStatus cs = .degraded ↔
      (∀ c ∈ cs, criticalBad c = false) ∧ ∃ c ∈ cs, reportsDegraded c = true) ∧
    ((∀ c ∈ cs, c.outcome = Except.ok .healthy ∨
        (c.critical = false ∧
          (c.outcome = Except.error () ∨ c.outcome = Except.ok .unhealthy))) →
      overallStatus cs = .healthy) := by
  have hchar := foldl_stepStatus_char cs .healthy
  rw [overallStatus, hchar]
  refine ⟨?_, ?_, ?_⟩
  · by_cases hcb : cs.any criticalBad
    · simpa [hcb] using List.any_eq_true.mp hcb
    · simp only [hcb, if_false]
      constructor
      · intro h
        by_cases hd : cs.any reportsDegraded <;> simp [hd] at h
      · intro h
        exact absurd (List.any_eq_true.mpr h) hcb
  · by_cases hcb : cs.any criticalBad
    · simp only [hcb, if_true]
      constructor
      · intro h; cases h
      · rintro ⟨hall, -⟩
        obtain ⟨c, hc, hbad⟩ := List.any_eq_true.mp hcb
        exact absurd (hall c hc) (by simp [hbad])
    · simp only [hcb, if_false]
      by_cases hd : cs.any reportsDegraded
      · simp only [hd, if_true, reduceIte]
        refine iff_of_true rfl ⟨?_, List.any_eq_true.mp hd⟩
        intro c hc
        by_contra hne
        exact hcb (List.any_eq_true.mpr ⟨c, hc, by simpa using hne⟩)
      · simp only [hd, if_false, reduceIte]
        constructor
        · intro h; cases h
        · rintro ⟨-, hex⟩
          exact absurd (List.any_eq_true.mpr hex) hd
  · intro hall
    have hcb : cs.any criticalBad = false := by
      rw [List.any_eq_false]
      intro c hc
      rcases hall c hc with h | ⟨hcrit, -⟩
      · simp [criticalBad, h]
      · simp [criticalBad, hcrit]
    have hd : cs.any reportsDegraded = false := by
      rw [List.any_eq_false]
      intro c hc
      rcases hall c hc with h | ⟨-, h | h⟩ <;> simp [reportsDegraded, h]
    simp [hcb, hd]

/-- Concrete instance: one non-critical check reporting `unhealthy`, one
non-critical check that throws, one critical healthy check — the aggregate is
`healthy`. -/
theorem overallStatus_characterization_witness :
    overallStatus
        [⟨false, Except.ok .unhealthy⟩, ⟨false, Except.error ()⟩,
          ⟨true, Except.ok .healthy⟩] = .healthy :=
  (overallStatus_characterization _).2.2 (by decide)

/-! ## Scraper (`ScraperWorker`) -/

/-- JS `s || null` on an optional string: the empty string is coerced to
`null`. -/
def jsOrNull (s : Option String) : Option String :=
  match s with
  | some s => if s = "" then none else some s
  | none => none

/-- The two sort methods accepted by the SCRAPE payload schema. -/
inductive SortMethod
  | recent
  | helpful
  deriving Repr, DecidableEq

/-- A raw review as returned by `store.reviews` before normalization
(`app-store-scraper` fields; optional fields may be absent). -/
structure RawReview where
  id : String
  userName : Option String
  userUrl : Option String
  version : Option String
  score : Int
  title : Option String
  text : Option String
  url : Option String
  date : Nat
  replyDate : Option Nat
  replyText : Option String
  helpfulVotes : Option Int
  deriving Repr, DecidableEq

/-- The per-review normalization inside `fetchReviewsForCountry`
(the `reviews.map` at lines 239–253 of the scraper worker): defaults for
missing author/version/title/text, `country` coerced to uppercase,
`helpfulVotes || 0`. -/
def processReview (countryCode : String) (r : RawReview) : Review :=
  { id := r.id
    userName := jsOrStr r.userName "Anonymous"
    userUrl := jsOrNull r.userUrl
    version := jsOrStr r.version "Unknown"
    score := r.score
    title := jsOrStr r.title ""
    text := jsOrStr r.text ""
    url := jsOrNull r.url
    date := r.date
    replyDate := r.replyDate
    replyText := jsOrNull r.replyText
    helpfulVotes := jsOrInt r.helpfulVotes 0
    country := countryCode.toUpper }

/-- The outcome of one `store.reviews` call, per `(sort, country, page)`:
either a thrown exception or a page of raw reviews. -/
def FetchOracle : Type :=
  SortMethod → String → Nat → Except Unit (List RawReview)

/-- The page loop of `fetchReviewsForCountry` (scraper worker lines 224–267):
starting at `page`, with `remaining` pages left to fetch; an empty page breaks
the loop, and a thrown fetch error breaks the loop for this `(sort, country)`
only — the reviews of the earlier pages are kept and returned. -/
def fetchGo (f : FetchOracle) (sort : SortMethod) (country : String) :
    Nat → Nat → List Review
  | 0, _ => []
  | remaining + 1, page =>
    match f sort country page with
    | .error _ => []
    | .ok raws =>
      if raws.isEmpty then []
      else raws.map (processReview country) ++ fetchGo f sort country remaining (page + 1)

/-- `ScraperWorker.fetchReviewsForCountry`: fetch pages
`1 .. min(maxPages, 10)` for one `(sort, country)` pair. -/
def fetchReviewsForCountry (f : FetchOracle) (sort : SortMethod) (country : String)
    (maxPages : Nat) : List Review :=
  fetchGo f sort country (min maxPages 10) 1

/-- The SCRAPE payload fields used by `processScrapingJob`. -/
structure ScrapePayloadData where
  appId : String
  countries : List String
  pages : Nat
  sortMethods : List SortMethod
  deriving Repr, DecidableEq

/-- The `(sort, country)` pairs in the declared iteration order of
`processScrapingJob`: outer loop over `sortMethods`, inner loop over
`countries`. -/
def scrapePairs (p : ScrapePayloadData) : List (SortMethod × String) :=
  p.sortMethods.flatMap fun s => p.countries.map fun c => (s, c)

/-- Key lookup in the JS `Map<string, Review>` accumulator. -/
def hasKey (m : List (String × Review)) (k : String) : Bool :=
  m.any fun kv => kv.1 = k

/-- JS `Map.prototype.set`: an existing key keeps its (insertion-order)
position and gets the new value; a new key is appended. -/
def mapSet (m : List (String × Review)) (k : String) (v : Review) :
    List (String × Review) :=
  if hasKey m k then m.map fun kv => if kv.1 = k then (k, v) else kv
  else m ++ [(k, v)]

/-- JS `Map.prototype.get` (as used through `Array.from(map.values())` and in
the proofs below). -/
def mapGet (m : List (String × Review)) (k : String) : Option Review :=
  (m.find? fun kv => kv.1 = k).map (·.2)

/-- `reviews.forEach(review => allReviews.set(review.id, review))`. -/
def mapSetAll (m : List (String × Review)) (rs : List Review) :
    List (String × Review) :=
  rs.foldl (fun m r => mapSet m r.id r) m

/-- The accumulator `allReviews` after the double loop of
`processScrapingJob`: each pair's fetched reviews are inserted keyed by
`review.id`, later observations overwriting earlier ones. -/
def scrapeAcc (f : FetchOracle) (p : ScrapePayloadData) : List (String × Review) :=
  (scrapePairs p).foldl
    (fun m sc => mapSetAll m (fetchReviewsForCountry f sc.1 sc.2 p.pages)) []

/-- All reviews observed across the fetched pages, in iteration order. -/
def observedReviews (f : FetchOracle) (p : ScrapePayloadData) : List Review :=
  (scrapePairs p).flatMap fun sc => fetchReviewsForCountry f sc.1 sc.2 p.pages

/-- The raw `store.app` response (fields used by `getAppInfo`). -/
structure AppData where
  title : Option String
  description : Option String
  version : Option String
  developer : Option String
  genre : Option String
  deriving Repr, DecidableEq

/-- The resolved app information (`AppInfo` in the shared types). -/
structure AppInfo where
  id : String
  title : String
  description : Option String
  version : Option String
  developer : Option String
  category : Option String
  deriving Repr, DecidableEq

/-- `ScraperWorker.getAppInfo`: tolerates a thrown catalog call by falling
back to `"Unknown App"` with null fields; otherwise applies the `||` defaults
of lines 152–159. -/
def getAppInfo (appId : String) (res : Except Unit AppData) : AppInfo :=
  match res with
  | .ok d =>
    { id := appId
      title := jsOrStr d.title "Unknown App"
      description := jsOrNull d.description
      version := jsOrNull d.version
      developer := jsOrNull d.developer
      category := jsOrNull d.genre }
  | .error _ =>
    { id := appId, title := "Unknown App", description := none, version := none,
      developer := none, category := none }

/-- `ScraperWorker.saveReviewsToDatabase`: the reviews are written in batches
of 50; each row's upsert may fail individually (logged and skipped), and
`savedCount` counts the successful rows. -/
def saveReviewsToDatabase (rowOk : String → Bool) (reviews : List Review) : Nat :=
  ((chunkList 50 reviews).map fun batch =>
    (batch.filter fun r => rowOk r.id).length).sum

/-- Environment of one SCRAPE job run: the catalog oracles and the database
behavior (`ensureAppOk = false` models a thrown DB error in step 2,
`rowOk` the per-row outcome of the review upserts). -/
structure ScrapeEnv where
  fetch : FetchOracle
  appData : Except Unit AppData
  ensureAppOk : Bool
  rowOk : String → Bool

/-- The fields of the scraper's `JobResult` that the claims mention. -/
structure ScrapeJobResult where
  success : Bool
  appTitle : String
  reviewsScraped : Nat
  countriesProcessed : Nat
  sortMethodsUsed : Nat
  itemsProcessed : Nat
  deriving Repr, DecidableEq

/-- `ScraperWorker.processScrapingJob`: resolve the app info (never throws),
ensure the app row (a thrown DB error here is caught by the outer `catch`,
which returns a `success=false` result), run the scraping double loop —
per-pair errors are swallowed inside it — then persist and report.  The
second component is `savedCount`, the number of review rows actually
inserted/updated. -/
def processScrapingJob (env : ScrapeEnv) (p : ScrapePayloadData) :
    ScrapeJobResult × Nat :=
  if env.ensureAppOk = false then
    ({ success := false, appTitle := "", reviewsScraped := 0,
       countriesProcessed := 0, sortMethodsUsed := 0, itemsProcessed := 0 }, 0)
  else
    let appInfo := getAppInfo p.appId env.appData
    let reviewsToSave := (scrapeAcc env.fetch p).map (·.2)
    let saved :=
      if reviewsToSave.isEmpty then 0
      else saveReviewsToDatabase env.rowOk reviewsToSave
    ({ success := true
       appTitle := appInfo.title
       reviewsScraped := reviewsToSave.length
       countriesProcessed := p.countries.length
       sortMethodsUsed := p.sortMethods.length
       itemsProcessed := reviewsToSave.length }, saved)

/-! ### Lemmas about the `Map<string, Review>` accumulator -/

theorem hasKey_iff (m : List (String × Review)) (k : String) :
    hasKey m k = true ↔ k ∈ m.map (·.1) := by
  simp [hasKey, List.any_eq_true, List.mem_map]

theorem keys_mapSet_of_hasKey (m : List (String × Review)) (k : String) (v : Review)
    (h : hasKey m k = true) : (mapSet m k v).map (·.1) = m.map (·.1) := by
  rw [mapSet, if_pos h, List.map_map]
  apply List.map_congr_left
  intro kv _
  by_cases hk : kv.1 = k
  · simp [hk]
  · simp [hk]

theorem keys_mapSet_of_not_hasKey (m : List (String × Review)) (k : String) (v : Review)
    (h : ¬hasKey m k = true) : (mapSet m k v).map (·.1) = m.map (·.1) ++ [k] := by
  rw [mapSet, if_neg h, List.map_append]
  rfl

theorem length_mapSet (m : List (String × Review)) (k : String) (v : Review) :
    (mapSet m k v).length = if hasKey m k then m.length else m.length + 1 := by
  rw [mapSet]
  by_cases h : hasKey m k <;> simp [h]

theorem nodupKeys_mapSet (m : List (String × Review)) (k : String) (v : Review)
    (h : (m.map (·.1)).Nodup) : ((mapSet m k v).map (·.1)).Nodup := by
  by_cases hk : hasKey m k = true
  · rw [keys_mapSet_of_hasKey m k v hk]; exact h
  · rw [keys_mapSet_of_not_hasKey m k v hk]
    refine List.Nodup.append h (List.nodup_singleton k) ?_
    intro x hx hxk
    rw [List.mem_singleton] at hxk
    subst hxk
    exact hk ((hasKey_iff m x).mpr hx)

theorem find?_entryUpdate_ne (m : List (String × Review)) (k k' : String) (v : Review)
    (h : k' ≠ k) :
    ((m.map fun kv => if kv.1 = k then (k, v) else kv).find? fun kv => kv.1 = k')
      = m.find? fun kv => kv.1 = k' := by
  induction m with
  | nil => rfl
  | cons kv m ih =>
    by_cases hk : kv.1 = k
    · rw [List.map_cons, if_pos hk]
      rw [List.find?_cons_of_neg _ (by simpa using Ne.symm h),
        List.find?_cons_of_neg _ (by simp [hk, h.symm]), ih]
    · rw [List.map_cons, if_neg hk]
      by_cases hk' : kv.1 = k'
      · rw [List.find?_cons_of_pos _ (by simpa using hk'),
          List.find?_cons_of_pos _ (by simpa using hk')]
      · rw [List.find?_cons_of_neg _ (by simpa using hk'),
          List.find?_cons_of_neg _ (by simpa using hk'), ih]

theorem find?_entryUpdate_eq (m : List (String × Review)) (k : String) (v : Review)
    (h : hasKey m k = true) :
    ((m.map fun kv => if kv.1 = k then (k, v) else kv).find? fun kv => kv.1 = k)
      = some (k, v) := by
  induction m with
  | nil => simp [hasKey] at h
  | cons kv₀ m ih =>
    by_cases h0 : kv₀.1 = k
    · rw [List.map_cons, if_pos h0, List.find?_cons_of_pos _ (by simp)]
    · rw [List.map_cons, if_neg h0, List.find?_cons_of_neg _ (by simpa using h0)]
      apply ih
      have hmem := (hasKey_iff _ k).mp h
      rw [List.map_cons, List.mem_cons] at hmem
      rcases hmem with h1 | h1
      · exact absurd h1.symm h0
      · exact (hasKey_iff m k).mpr h1

theorem mapGet_mapSet (m : List (String × Review)) (k : String) (v : Review) (k' : String) :
    mapGet (mapSet m k v) k' = if k' = k then some v else mapGet m k' := by
  by_cases h : hasKey m k = true
  · rw [mapSet, if_pos h]
    by_cases hk' : k' = k
    · subst hk'
      rw [if_pos rfl]
      unfold mapGet
      rw [find?_entryUpdate_eq m k' v h]
      rfl
    · rw [if_neg hk']
      unfold mapGet
      rw [find?_entryUpdate_ne m k k' v hk']
  · rw [mapSet, if_neg h]
    unfold mapGet
    rw [List.find?_append]
    by_cases hk' : k' = k
    · subst hk'
      have hnone : (m.find? fun kv => kv.1 = k') = none := by
        rw [List.find?_eq_none]
        intro kv hkv hp
        exact h ((hasKey_iff m k').mpr (List.mem_map.mpr ⟨kv, hkv, by simpa using hp⟩))
      rw [hnone, if_pos rfl]
      simp [List.find?]
    · by_cases hm : (m.find? fun kv => kv.1 = k').isSome
      · obtain ⟨kv, hkv⟩ := Option.isSome_iff_exists.mp hm
        rw [hkv, if_neg hk']
        rfl
      · rw [Option.not_isSome_iff_eq_none] at hm
        rw [hm]
        simp [List.find?, Ne.symm hk', hk']

theorem hasKey_mapSet_iff (m : List (String × Review)) (k : String) (v : Review)
    (k' : String) :
    hasKey (mapSet m k v) k' = true ↔ (hasKey m k' = true ∨ k' = k) := by
  by_cases h : hasKey m k = true
  · rw [hasKey_iff, keys_mapSet_of_hasKey m k v h, ← hasKey_iff]
    constructor
    · exact Or.inl
    · rintro (hk | rfl)
      · exact hk
      · exact h
  · rw [hasKey_iff, keys_mapSet_of_not_hasKey m k v h, List.mem_append,
      List.mem_singleton, ← hasKey_iff]

theorem mapSetAll_cons (m : List (String × Review)) (r : Review) (rs : List Review) :
    mapSetAll m (r :: rs) = mapSetAll (mapSet m r.id r) rs := rfl

theorem hasKey_mapSetAll_iff (rs : List Review) (m : List (String × Review))
    (k : String) :
    hasKey (mapSetAll m rs) k = true ↔ (hasKey m k = true ∨ ∃ r ∈ rs, r.id = k) := by
  induction rs generalizing m with
  | nil => simp [mapSetAll]
  | cons r rs ih =>
    rw [mapSetAll_cons, ih, hasKey_mapSet_iff]
    simp only [List.mem_cons]
    constructor
    · rintro ((hm | rfl) | ⟨r', hr', hid⟩)
      · exact Or.inl hm
      · exact Or.inr ⟨r, Or.inl rfl, rfl⟩
      · exact Or.inr ⟨r', Or.inr hr', hid⟩
    · rintro (hm | ⟨r', hr' | hr', hid⟩)
      · exact Or.inl (Or.inl hm)
      · exact Or.inl (Or.inr (hr' ▸ hid.symm))
      · exact Or.inr ⟨r', hr', hid⟩

theorem nodupKeys_mapSetAll (rs : List Review) (m : List (String × Review))
    (h : (m.map (·.1)).Nodup) : ((mapSetAll m rs).map (·.1)).Nodup := by
  induction rs generalizing m with
  | nil => exact h
  | cons r rs ih => exact ih _ (nodupKeys_mapSet m r.id r h)

theorem mapGet_mapSetAll (rs : List Review) (m : List (String × Review)) (k : String) :
    mapGet (mapSetAll m rs) k
      = rs.foldl (fun acc r => if r.id = k then some r else acc) (mapGet m k) := by
  induction rs generalizing m with
  | nil => rfl
  | cons r rs ih =>
    rw [mapSetAll_cons, ih, List.foldl_cons, mapGet_mapSet]
    by_cases hk : r.id = k
    · rw [if_pos hk.symm, if_pos hk]
    · rw [if_neg (Ne.symm hk), if_neg hk]

theorem mapSetAll_append (m : List (String × Review)) (xs ys : List Review) :
    mapSetAll m (xs ++ ys) = mapSetAll (mapSetAll m xs) ys :=
  List.foldl_append ..

theorem foldl_mapSetAll_flatMap (F : SortMethod × String → List Review) :
    ∀ (pairs : List (SortMethod × String)) (m : List (String × Review)),
      pairs.foldl (fun m sc => mapSetAll m (F sc)) m = mapSetAll m (pairs.flatMap F) := by
  intro pairs
  induction pairs with
  | nil => intro m; rfl
  | cons sc pairs ih =>
    intro m
    rw [List.foldl_cons, List.flatMap_cons, mapSetAll_append, ih]

theorem scrapeAcc_eq_mapSetAll (f : FetchOracle) (p : ScrapePayloadData) :
    scrapeAcc f p = mapSetAll [] (observedReviews f p) :=
  foldl_mapSetAll_flatMap _ (scrapePairs p) []

/-! ### C2: per-pair error isolation in the scraping loop -/

theorem fetchGo_congr (f g : FetchOracle) (s : SortMethod) (c : String)
    (h : ∀ page, f s c page = g s c page) :
    ∀ (remaining page : Nat), fetchGo f s c remaining page = fetchGo g s c remaining page := by
  intro remaining
  induction remaining with
  | zero => intro page; rfl
  | succ n ih =>
    intro page
    rw [fetchGo, fetchGo, h page]
    cases g s c page with
    | error e => rfl
    | ok raws =>
      by_cases he : raws.isEmpty <;> simp only [he, if_true, if_false, ih (page + 1)]

/-- C2: with the app row ensured, a SCRAPE job reports `success = true` no
matter which page fetches throw; a thrown fetch ends the page loop of its own
`(sort, country)` pair only (the pages already fetched for that pair are
kept, and the contribution of every other pair is unchanged under any
modification of the oracle on the failing pair); and every review fetched for
any pair ends up in the accumulator. -/
theorem scrape_pair_errors_isolated (env : ScrapeEnv) (p : ScrapePayloadData)
    (hok : env.ensureAppOk = true) :
    (processScrapingJob env p).1.success = true ∧
    (∀ (s : SortMethod) (c : String) (remaining page : Nat),
      env.fetch s c page = .error () → fetchGo env.fetch s c remaining page = []) ∧
    (∀ (g : FetchOracle) (s₀ : SortMethod) (c₀ : String),
      (∀ s c page, ¬(s = s₀ ∧ c = c₀) → g s c page = env.fetch s c page) →
      ∀ s c, ¬(s = s₀ ∧ c = c₀) →
        fetchReviewsForCountry g s c p.pages
          = fetchReviewsForCountry env.fetch s c p.pages) ∧
    (∀ sc ∈ scrapePairs p, ∀ r ∈ fetchReviewsForCountry env.fetch sc.1 sc.2 p.pages,
      hasKey (scrapeAcc env.fetch p) r.id = true) := by
  refine ⟨?_, ?_, ?_, ?_⟩
  · rw [processScrapingJob, hok]
    simp
  · intro s c remaining page herr
    cases remaining with
    | zero => rfl
    | succ n => rw [fetchGo, herr]
  · intro g s₀ c₀ hagree s c hne
    exact fetchGo_congr g env.fetch s c (fun page => hagree s c page hne) _ _
  · intro sc hsc r hr
    rw [scrapeAcc_eq_mapSetAll, hasKey_mapSetAll_iff]
    refine Or.inr ⟨r, ?_, rfl⟩
    rw [observedReviews, List.mem_flatMap]
    exact ⟨sc, hsc, hr⟩

/-- Concrete instance of `scrape_pair_errors_isolated` on the spec's
scenario 2: the `(recent, gb)` fetch throws on page 1, `(recent, us)` yields
one review — the job still succeeds. -/
theorem scrape_pair_errors_isolated_witness :
    (processScrapingJob
        { fetch := fun _ c page =>
            if c = "gb" then .error ()
            else if page = 1 then
              .ok [{ id := "r1", userName := some "User1", userUrl := none,
                     version := some "1.0", score := 5, title := some "Great!",
                     text := some "Good app", url := none, date := 0,
                     replyDate := none, replyText := none, helpfulVotes := some 1 }]
            else .ok []
          appData := .error ()
          ensureAppOk := true
          rowOk := fun _ => true }
        { appId := "737534985", countries := ["us", "gb"], pages := 2,
          sortMethods := [.recent] }).1.success = true :=
  (scrape_pair_errors_isolated _ _ rfl).1

/-! ### C3: deduplicated counts and persisted rows -/

theorem saveReviews_all_ok (rowOk : String → Bool) (rs : List Review)
    (h : ∀ r ∈ rs, rowOk r.id = true) :
    saveReviewsToDatabase rowOk rs = rs.length := by
  unfold saveReviewsToDatabase
  have hfil : ∀ b ∈ chunkList 50 rs, b.filter (fun r => rowOk r.id) = b := by
    intro b hb
    apply List.filter_eq_self.mpr
    intro r hr
    apply h
    have hmem : r ∈ (chunkList 50 rs).flatten := List.mem_flatten.mpr ⟨b, hb, hr⟩
    rwa [chunkList_flatten] at hmem
  calc ((chunkList 50 rs).map fun b => (b.filter fun r => rowOk r.id).length).sum
      = ((chunkList 50 rs).map fun b => b.length).sum := by
        exact congrArg List.sum (List.map_congr_left fun b hb => by rw [hfil b hb])
    _ = (chunkList 50 rs).flatten.length := (List.length_flatten _).symm
    _ = rs.length := by rw [chunkList_flatten]

/-- C3 (amended): for a SCRAPE job whose step 2 succeeds, `reviewsScraped` and
`itemsProcessed` equal the number of distinct `reviewId`s observed across all
fetched pages; the number of review rows inserted/updated also equals that
number provided every individual row upsert succeeds; and the accumulator's
value at each id is the last observation with that id in the declared
`sortMethods × countries × pages` iteration order. -/
theorem scrape_counts_distinct (env : ScrapeEnv) (p : ScrapePayloadData)
    (hok : env.ensureAppOk = true) :
    (processScrapingJob env p).1.reviewsScraped
        = ((observedReviews env.fetch p).map (·.id)).toFinset.card ∧
    (processScrapingJob env p).1.itemsProcessed
        = (processScrapingJob env p).1.reviewsScraped ∧
    ((∀ r ∈ (scrapeAcc env.fetch p).map (·.2), env.rowOk r.id = true) →
      (processScrapingJob env p).2 = (processScrapingJob env p).1.reviewsScraped) ∧
    (∀ k, mapGet (scrapeAcc env.fetch p) k
        = (observedReviews env.fetch p).foldl
            (fun acc r => if r.id = k then some r else acc) none) := by
  have hproc : processScrapingJob env p =
      ({ success := true
         appTitle := (getAppInfo p.appId env.appData).title
         reviewsScraped := ((scrapeAcc env.fetch p).map (·.2)).length
         countriesProcessed := p.countries.length
         sortMethodsUsed := p.sortMethods.length
         itemsProcessed := ((scrapeAcc env.fetch p).map (·.2)).length },
       if ((scrapeAcc env.fetch p).map (·.2)).isEmpty then 0
       else saveReviewsToDatabase env.rowOk ((scrapeAcc env.fetch p).map (·.2))) := by
    rw [processScrapingJob, hok]
    simp
  have hnodup : ((scrapeAcc env.fetch p).map (·.1)).Nodup := by
    rw [scrapeAcc_eq_mapSetAll]
    exact nodupKeys_mapSetAll _ [] List.nodup_nil
  have hkeys : ((scrapeAcc env.fetch p).map (·.1)).toFinset
      = ((observedReviews env.fetch p).map (·.id)).toFinset := by
    apply Finset.ext
    intro k
    rw [List.mem_toFinset, List.mem_toFinset, ← hasKey_iff, scrapeAcc_eq_mapSetAll,
      hasKey_mapSetAll_iff]
    constructor
    · rintro (h | ⟨r, hr, rfl⟩)
      · simp [hasKey] at h
      · exact List.mem_map.mpr ⟨r, hr, rfl⟩
    · intro h
      obtain ⟨r, hr, rfl⟩ := List.mem_map.mp h
      exact Or.inr ⟨r, hr, rfl⟩
  have hlen : ((scrapeAcc env.fetch p).map (·.2)).length
      = ((observedReviews env.fetch p).map (·.id)).toFinset.card := by
    rw [List.length_map, ← hkeys, List.toFinset_card_of_nodup hnodup, List.length_map]
  refine ⟨?_, ?_, ?_, ?_⟩
  · rw [hproc]; exact hlen
  · rw [hproc]
  · intro hrows
    rw [hproc]
    simp only
    by_cases hempty : ((scrapeAcc env.fetch p).map (·.2)).isEmpty
    · rw [if_pos hempty]
      rw [List.isEmpty_iff] at hempty
      rw [hempty]
      rfl
    · rw [if_neg hempty, saveReviews_all_ok env.rowOk _ hrows]
  · intro k
    rw [scrapeAcc_eq_mapSetAll, mapGet_mapSetAll]
    rfl

/-- C3 counterexample, refuting the claim as stated: a job observing two
distinct reviews where the upsert of row `r2` fails (logged and skipped by
`saveReviewsToDatabase`) still completes with `success = true` and reports
`reviewsScraped = 2`, but only `1` row is inserted/updated — fewer than the
number of distinct `reviewId`s. -/
theorem scrape_row_failure_breaks_count :
    (processScrapingJob
        { fetch := fun _ _ page =>
            if page = 1 then
              .ok [{ id := "r1", userName := none, userUrl := none, version := none,
                     score := 5, title := none, text := none, url := none, date := 0,
                     replyDate := none, replyText := none, helpfulVotes := none },
                   { id := "r2", userName := none, userUrl := none, version := none,
                     score := 4, title := none, text := none, url := none, date := 0,
                     replyDate := none, replyText := none, helpfulVotes := none }]
            else .ok []
          appData := .error ()
          ensureAppOk := true
          rowOk := fun id => id = "r1" }
        { appId := "a1", countries := ["us"], pages := 1,
          sortMethods := [.recent] }).1.success = true ∧
    (processScrapingJob
        { fetch := fun _ _ page =>
            if page = 1 then
              .ok [{ id := "r1", userName := none, userUrl := none, version := none,
                     score := 5, title := none, text := none, url := none, date := 0,
                     replyDate := none, replyText := none, helpfulVotes := none },
                   { id := "r2", userName := none, userUrl := none, version := none,
                     score := 4, title := none, text := none, url := none, date := 0,
                     replyDate := none, replyText := none, helpfulVotes := none }]
            else .ok []
          appData := .error ()
          ensureAppOk := true
          rowOk := fun id => id = "r1" }
        { appId := "a1", countries := ["us"], pages := 1,
          sortMethods := [.recent] }).1.reviewsScraped = 2 ∧
    (processScrapingJob
        { fetch := fun _ _ page =>
            if page = 1 then
              .ok [{ id := "r1", userName := none, userUrl := none, version := none,
                     score := 5, title := none, text := none, url := none, date := 0,
                     replyDate := none, replyText := none, helpfulVotes := none },
                   { id := "r2", userName := none, userUrl := none, version := none,
                     score := 4, title := none, text := none, url := none, date := 0,
                     replyDate := none, replyText := none, helpfulVotes := none }]
            else .ok []
          appData := .error ()
          ensureAppOk := true
          rowOk := fun id => id = "r1" }
        { appId := "a1", countries := ["us"], pages := 1,
          sortMethods := [.recent] }).2 = 1 := by
  refine ⟨rfl, rfl, ?_⟩
  decide

/-- Concrete instance of `scrape_counts_distinct` with every row upsert
succeeding. -/
theorem scrape_counts_distinct_witness :
    (processScrapingJob
        { fetch := fun _ _ page =>
            if page = 1 then
              .ok [{ id := "r1", userName := none, userUrl := none, version := none,
                     score := 5, title := none, text := none, url := none, date := 0,
                     replyDate := none, replyText := none, helpfulVotes := none }]
            else .ok []
          appData := .error ()
          ensureAppOk := true
          rowOk := fun _ => true }
        { appId := "a1", countries := ["us"], pages := 1,
          sortMethods := [.recent] }).2
      = (processScrapingJob
        { fetch := fun _ _ page =>
            if page = 1 then
              .ok [{ id := "r1", userName := none, userUrl := none, version := none,
                     score := 5, title := none, text := none, url := none, date := 0,
                     replyDate := none, replyText := none, helpfulVotes := none }]
            else .ok []
          appData := .error ()
          ensureAppOk := true
          rowOk := fun _ => true }
        { appId := "a1", countries := ["us"], pages := 1,
          sortMethods := [.recent] }).1.reviewsScraped :=
  (scrape_counts_distinct _ _ rfl).2.2.1 (by decide)

/-! ### C9: `ensureAppInDatabase` -/

/-- A row of the `apps` table (mutable fields plus timestamps). -/
structure AppRow where
  title : String
  description : Option String
  version : Option String
  developer : Option String
  category : Option String
  createdAt : Nat
  updatedAt : Option Nat
  deriving Repr, DecidableEq

/-- The row produced by the `INSERT` branch for a fresh app. -/
def appRowOfInfo (info : AppInfo) (now : Nat) : AppRow :=
  { title := info.title, description := info.description, version := info.version,
    developer := info.developer, category := info.category, createdAt := now,
    updatedAt := none }

/-- The `DO UPDATE SET` clause applied to an existing row: mutable fields
from the resolved info, `updated_at = NOW()`, `created_at` untouched. -/
def conflictUpdateRow (row : AppRow) (info : AppInfo) (now : Nat) : AppRow :=
  { title := info.title, description := info.description, version := info.version,
    developer := info.developer, category := info.category,
    createdAt := row.createdAt, updatedAt := some now }

/-- The SQL statement of `ensureAppInDatabase`:
`INSERT INTO apps … ON CONFLICT (id) DO UPDATE SET <mutable fields>,
updated_at = NOW()`. -/
def upsertAppRow (db : List (String × AppRow)) (info : AppInfo) (now : Nat) :
    List (String × AppRow) :=
  if db.any (fun kv => kv.1 = info.id) then
    db.map fun kv =>
      if kv.1 = info.id then (info.id, conflictUpdateRow kv.2 info now) else kv
  else db ++ [(info.id, appRowOfInfo info now)]

/-- `ScraperWorker.ensureAppInDatabase`: first `SELECT id FROM apps WHERE
id = $1`; the insert-with-on-conflict statement runs **only when the select
finds no row** (`existingApp.rows.length === 0`), so an existing row is left
untouched. -/
def ensureAppInDatabase (db : List (String × AppRow)) (info : AppInfo) (now : Nat) :
    List (String × AppRow) :=
  if db.any (fun kv => kv.1 = info.id) then db
  else upsertAppRow db info now

/-- C9 counterexample, refuting the claim as stated: with an existing `apps`
row whose title is "Old Title", running step 2 with newly resolved title
"New Title" leaves the row completely unchanged — neither the mutable fields
nor `updatedAt` are updated. -/
theorem ensureApp_skips_existing_row :
    ensureAppInDatabase
        [("app1", { title := "Old Title", description := none, version := none,
                    developer := none, category := none, createdAt := 0,
                    updatedAt := none })]
        { id := "app1", title := "New Title", description := some "d",
          version := some "2.0", developer := some "dev", category := some "Games" }
        100
      = [("app1", { title := "Old Title", description := none, version := none,
                    developer := none, category := none, createdAt := 0,
                    updatedAt := none })] ∧
    ("Old Title" : String) ≠ "New Title" := by
  exact ⟨rfl, by decide⟩

/-- C9 amended: `ensureAppInDatabase` upserts only when the preliminary
`SELECT` finds no row with that `appId`; when a row already exists it is left
entirely unchanged (the SQL's on-conflict-update clause is unreachable behind
the existence check). -/
theorem ensureApp_insert_only_when_absent (db : List (String × AppRow))
    (info : AppInfo) (now : Nat) :
    (db.any (fun kv => kv.1 = info.id) = true →
      ensureAppInDatabase db info now = db) ∧
    (db.any (fun kv => kv.1 = info.id) = false →
      ensureAppInDatabase db info now = db ++ [(info.id, appRowOfInfo info now)]) := by
  constructor
  · intro h
    rw [ensureAppInDatabase, if_pos h]
  · intro h
    rw [ensureAppInDatabase, if_neg (by rw [h]; exact Bool.false_ne_true),
      upsertAppRow, if_neg (by rw [h]; exact Bool.false_ne_true)]

/-- Concrete instance of `ensureApp_insert_only_when_absent`: inserting into
an empty table appends the fresh row. -/
theorem ensureApp_insert_only_when_absent_witness :
    ensureAppInDatabase []
        { id := "app1", title := "T", description := none, version := none,
          developer := none, category := none } 5
      = [("app1", appRowOfInfo
          { id := "app1", title := "T", description := none, version := none,
            developer := none, category := none } 5)] :=
  (ensureApp_insert_only_when_absent [] _ 5).2 rfl

/-! ### C1: thrown processor errors, retries and the dead-letter queue -/

/-- The structured error result returned by the `catch` block of
`BullMQScraperWorker.processJob` (`queue-worker.ts` lines 68–79). -/
def bullmqCatchResult : ScrapeJobResult :=
  { success := false, appTitle := "", reviewsScraped := 0,
    countriesProcessed := 0, sortMethodsUsed := 0, itemsProcessed := 0 }

/-- `BullMQScraperWorker.processJob`: throws only when the worker is shutting
down; otherwise it awaits `processScrapingJob` and converts any thrown error
into a returned `success=false` result — it never rethrows. -/
def processJobBullMQ (isShuttingDown : Bool)
    (inner : Except Unit ScrapeJobResult) : Except Unit ScrapeJobResult :=
  if isShuttingDown then .error ()
  else
    match inner with
    | .ok r => .ok r
    | .error _ => .ok bullmqCatchResult

/-- Observable queue-system state for one job: results of completed runs, the
count of terminally failed runs, and the dead-letter queue contents. -/
structure QueueSim where
  completedResults : List ScrapeJobResult
  failedCount : Nat
  dlq : List String
  deriving Repr, DecidableEq

/-- Modelled from the spec: the per-job retry loop of the worker runtime
(§4.3/§4.5), which the repository delegates to the external BullMQ `Worker`
(not part of this repository's sources).  `proc attempt` is the registered
processor's outcome on that attempt: a returned result completes the job; a
thrown error consumes the attempt and the job is retried while attempts
remain, after which it enters the `failed` state.  Dead-letter insertion is
performed only by repository code (`DeadLetterQueueManager.moveToDeadLetter`);
no failure path of the workers calls it — the `failed` event handlers only
log — so the `dlq` component never grows during processing.  The second
component of the value is the number of attempts consumed. -/
def runJobGo (proc : Nat → Except Unit ScrapeJobResult) (attempt : Nat) :
    Nat → QueueSim → QueueSim × Nat
  | 0, st => (st, attempt)
  | remaining + 1, st =>
    match proc attempt with
    | .ok r => ({ st with completedResults := st.completedResults ++ [r] }, attempt + 1)
    | .error _ =>
      if remaining = 0 then ({ st with failedCount := st.failedCount + 1 }, attempt + 1)
      else runJobGo proc (attempt + 1) remaining st

/-- One job processed with up to `maxAttempts` attempts. -/
def workerRunJob (proc : Nat → Except Unit ScrapeJobResult) (maxAttempts : Nat)
    (st : QueueSim) : QueueSim × Nat :=
  runJobGo proc 0 maxAttempts st

/-- C1 counterexample, refuting the claim as stated: a SCRAPE job whose
processing throws a (retryable) DB error on every attempt, with
`maxAttempts = 3`: the error is caught inside `processScrapingJob`, the job
completes on the **first** attempt with a `success=false` result, is never
failed or retried, and the dead-letter queue stays empty — the job appears
`0` times in the DLQ, not exactly once. -/
theorem scrape_throw_never_reaches_dlq :
    (workerRunJob
        (fun _ => processJobBullMQ false
          (.ok (processScrapingJob
            { fetch := fun _ _ _ => .error (), appData := .error (),
              ensureAppOk := false, rowOk := fun _ => true }
            { appId := "a1", countries := ["us"], pages := 1,
              sortMethods := [.recent] }).1))
        3 ⟨[], 0, []⟩).1.dlq.length = 0 ∧
    (0 : Nat) ≠ 1 ∧
    (workerRunJob
        (fun _ => processJobBullMQ false
          (.ok (processScrapingJob
            { fetch := fun _ _ _ => .error (), appData := .error (),
              ensureAppOk := false, rowOk := fun _ => true }
            { appId := "a1", countries := ["us"], pages := 1,
              sortMethods := [.recent] }).1))
        3 ⟨[], 0, []⟩)
      = (⟨[bullmqCatchResult], 0, []⟩, 1) := by
  refine ⟨rfl, by decide, rfl⟩

/-- C1 amended: a thrown error inside the scraping work is caught and
converted into a `success=false` *completed* result: for any `maxAttempts ≥ 1`
the job consumes exactly one attempt, completes with the structured failure
result, is never terminally failed, and the dead-letter queue is unchanged
(DLQ records are written only by explicit operator calls to
`moveToDeadLetter`). -/
theorem scrape_throw_completes_with_failure (env : ScrapeEnv)
    (p : ScrapePayloadData) (st : QueueSim) (maxAttempts : Nat)
    (hmax : 1 ≤ maxAttempts) (hthrow : env.ensureAppOk = false) :
    workerRunJob
        (fun _ => processJobBullMQ false (.ok (processScrapingJob env p).1))
        maxAttempts st
      = ({ st with completedResults := st.completedResults ++ [bullmqCatchResult] }, 1) ∧
    (workerRunJob
        (fun _ => processJobBullMQ false (.ok (processScrapingJob env p).1))
        maxAttempts st).1.dlq = st.dlq ∧
    (workerRunJob
        (fun _ => processJobBullMQ false (.ok (processScrapingJob env p).1))
        maxAttempts st).1.failedCount = st.failedCount := by
  have hres : (processScrapingJob env p).1 = bullmqCatchResult := by
    rw [processScrapingJob, hthrow]
    rfl
  obtain ⟨n, rfl⟩ : ∃ n, maxAttempts = n + 1 :=
    ⟨maxAttempts - 1, by omega⟩
  have hrun : workerRunJob
      (fun _ => processJobBullMQ false (.ok (processScrapingJob env p).1))
      (n + 1) st
      = ({ st with completedResults := st.completedResults ++ [bullmqCatchResult] }, 1) := by
    rw [workerRunJob, runJobGo]
    simp only [processJobBullMQ, if_neg (by decide : ¬(false = true)), hres]
  exact ⟨hrun, by rw [hrun], by rw [hrun]⟩

/-- Concrete instance of `scrape_throw_completes_with_failure`. -/
theorem scrape_throw_completes_with_failure_witness :
    workerRunJob
        (fun _ => processJobBullMQ false
          (.ok (processScrapingJob
            { fetch := fun _ _ _ => .ok [], appData := .error (),
              ensureAppOk := false, rowOk := fun _ => true }
            { appId := "a2", countries := ["de"], pages := 2,
              sortMethods := [.helpful] }).1))
        2 ⟨[], 0, []⟩
      = (⟨[bullmqCatchResult], 0, []⟩, 1) :=
  (scrape_throw_completes_with_failure _ _ ⟨[], 0, []⟩ 2 (by decide) rfl).1

/-! ## Dead-letter queue manager (`deadletter.ts`) -/

/-- A dead-letter record (the fields used by the retry operations); the
original payload type is abstract. -/
structure DLQRecord (α : Type) where
  id : String
  originalJobData : α
  failureReason : String
  deriving Repr, DecidableEq

/-- A job re-enqueued on the original kind's queue.  A freshly added BullMQ
job starts with `attemptsMade = 0` (the `attempts: 3` option is the maximum,
not the counter). -/
structure ReplayJob (α : Type) where
  payload : α
  attemptsMade : Nat
  priority : Nat
  delay : Nat
  deriving Repr, DecidableEq

/-- The state visible to the DLQ manager: the original kind's queue and its
dead-letter queue. -/
structure DLQState (α : Type) where
  queue : List (ReplayJob α)
  dlq : List (DLQRecord α)
  deriving Repr, DecidableEq

/-- The job appended by `retryFromDeadLetter` for record `d`:
`priority: options.priority || 5`, `delay: options.delay || 0`,
payload verbatim from the record. -/
def replayJobOf (d : DLQRecord α) (priority? delay? : Option Nat) : ReplayJob α :=
  { payload := d.originalJobData, attemptsMade := 0,
    priority := jsOrNat priority? 5, delay := jsOrNat delay? 0 }

/-- `DeadLetterQueueManager.retryFromDeadLetter` (`deadletter.ts` lines
111–150): look up the DLQ record by id (throwing when absent), `add` a new
job with the record's `originalJobData` onto the original kind's queue, then
`remove` the DLQ record. -/
def retryFromDeadLetter (st : DLQState α) (dlqJobId : String)
    (priority? delay? : Option Nat) : Except Unit (DLQState α × α) :=
  match st.dlq.find? (fun d => d.id = dlqJobId) with
  | none => .error ()
  | some d =>
    .ok ({ queue := st.queue ++ [replayJobOf d priority? delay?],
           dlq := st.dlq.eraseP (fun d' => d'.id = dlqJobId) },
         d.originalJobData)

/-- `DeadLetterQueueManager.retryByFailureReason` (lines 155–186): filter the
DLQ records whose `failureReason` **equals** the given string, keep the first
`options.maxJobs || 10` of them, and retry each in turn (per-record errors
are logged and skipped). -/
def retryByFailureReason (st : DLQState α) (reason : String)
    (priority? delay? maxJobs? : Option Nat) : DLQState α × List α :=
  ((st.dlq.filter fun d => d.failureReason = reason).take (jsOrNat maxJobs? 10)).foldl
    (fun acc d =>
      match retryFromDeadLetter acc.1 d.id priority? delay? with
      | .ok (st', pay) => (st', acc.2 ++ [pay])
      | .error _ => acc)
    (st, [])

/-- JS `hay.includes(needle)`: substring containment. -/
def strContainsSub (hay needle : String) : Bool :=
  (List.range (hay.length + 1)).any fun i =>
    (hay.data.drop i).take needle.length = needle.data

/-! ### Find / erase lemmas under unique record ids -/

theorem find?_record_of_mem_nodup (l : List (DLQRecord α)) (d : DLQRecord α)
    (hd : d ∈ l) (hnod : (l.map (·.id)).Nodup) :
    l.find? (fun d' => d'.id = d.id) = some d := by
  induction l with
  | nil => cases hd
  | cons d₀ l ih =>
    rw [List.map_cons, List.nodup_cons] at hnod
    rcases List.mem_cons.mp hd with rfl | hd'
    · rw [List.find?_cons_of_pos _ (by simp)]
    · have hne : d₀.id ≠ d.id := by
        intro he
        exact hnod.1 (he ▸ List.mem_map.mpr ⟨d, hd', rfl⟩)
      rw [List.find?_cons_of_neg _ (by simpa using hne)]
      exact ih hd' hnod.2

theorem eraseP_eq_filter_of_nodup (l : List (DLQRecord α)) (k : String)
    (hnod : (l.map (·.id)).Nodup) :
    l.eraseP (fun d' => d'.id = k) = l.filter (fun d' => ¬d'.id = k) := by
  induction l with
  | nil => rfl
  | cons d₀ l ih =>
    rw [List.map_cons, List.nodup_cons] at hnod
    by_cases h0 : d₀.id = k
    · rw [List.eraseP_cons_of_pos (by simpa using h0),
        List.filter_cons_of_neg (by simpa using h0)]
      rw [List.filter_eq_self.mpr]
      intro d' hd'
      simp only [decide_eq_true_eq]
      intro he
      exact hnod.1 (h0 ▸ he ▸ List.mem_map.mpr ⟨d', hd', rfl⟩)
    · rw [List.eraseP_cons_of_neg (by simpa using h0),
        List.filter_cons_of_pos (by simpa using h0), ih hnod.2]

theorem retryByReason_foldl (priority? delay? : Option Nat) :
    ∀ (ms : List (DLQRecord α)) (st : DLQState α) (acc : List α),
      (st.dlq.map (·.id)).Nodup →
      (∀ d ∈ ms, d ∈ st.dlq) →
      (ms.map (·.id)).Nodup →
      ms.foldl
        (fun acc d =>
          match retryFromDeadLetter acc.1 d.id priority? delay? with
          | .ok (st', pay) => (st', acc.2 ++ [pay])
          | .error _ => acc)
        (st, acc)
      = ({ queue := st.queue ++ ms.map (replayJobOf · priority? delay?),
           dlq := st.dlq.filter fun d' => ¬d'.id ∈ ms.map (·.id) },
         acc ++ ms.map (·.originalJobData)) := by
  intro ms
  induction ms with
  | nil =>
    intro st acc hnod hsub hms
    simp only [List.foldl_nil, List.map_nil, List.append_nil]
    refine congrArg (·, acc) ?_
    cases st with
    | mk q dl =>
      simp only [DLQState.mk.injEq]
      refine ⟨trivial, ?_⟩
      rw [List.filter_eq_self.mpr]
      intro d' _
      simp
  | cons d ms ih =>
    intro st acc hnod hsub hms
    rw [List.foldl_cons]
    have hfind : st.dlq.find? (fun d' => d'.id = d.id) = some d :=
      find?_record_of_mem_nodup st.dlq d (hsub d (List.mem_cons_self d ms)) hnod
    rw [List.map_cons, List.nodup_cons] at hms
    have hstep : retryFromDeadLetter st d.id priority? delay?
        = .ok ({ queue := st.queue ++ [replayJobOf d priority? delay?],
                 dlq := st.dlq.filter fun d' => ¬d'.id = d.id },
               d.originalJobData) := by
      rw [retryFromDeadLetter, hfind, eraseP_eq_filter_of_nodup st.dlq d.id hnod]
    rw [hstep]
    have hnod' : ((st.dlq.filter fun d' => ¬d'.id = d.id).map (·.id)).Nodup := by
      have hsl : ((st.dlq.filter fun d' => ¬d'.id = d.id).map (·.id)).Sublist
          (st.dlq.map (·.id)) := (List.filter_sublist _).map _
      exact hnod.sublist hsl
    have hsub' : ∀ d' ∈ ms, d' ∈ st.dlq.filter fun d'' => ¬d''.id = d.id := by
      intro d' hd'
      rw [List.mem_filter]
      refine ⟨hsub d' (List.mem_cons_of_mem d hd'), ?_⟩
      simp only [decide_eq_true_eq]
      intro he
      exact hms.1 (he ▸ List.mem_map.mpr ⟨d', hd', rfl⟩)
    rw [ih ({ queue := st.queue ++ [replayJobOf d priority? delay?],
              dlq := st.dlq.filter fun d' => ¬d'.id = d.id })
          (acc ++ [d.originalJobData]) hnod' hsub' hms.2]
    simp only [Prod.mk.injEq, DLQState.mk.injEq, List.map_cons, List.append_assoc,
      List.singleton_append]
    refine ⟨⟨trivial, ?_⟩, ?_⟩
    · rw [List.filter_filter]
      apply List.filter_congr
      intro a _
      simp [List.mem_cons, not_or, Bool.and_comm]
    · simp

/-- C8 counterexample, refuting the claim as stated: `retryByFailureReason`
compares failure reasons with strict equality (`===`), not substring
containment.  A record whose reason is "network timeout" *contains* the
substring "timeout" but is not replayed: the operation returns no new job and
leaves the state unchanged. -/
theorem replayByReason_substring_not_replayed :
    strContainsSub "network timeout" "timeout" = true ∧
    (retryByFailureReason (α := Nat)
        { queue := [], dlq := [{ id := "d1", originalJobData := 7,
                                 failureReason := "network timeout" }] }
        "timeout" none none none).2 = [] ∧
    (retryByFailureReason (α := Nat)
        { queue := [], dlq := [{ id := "d1", originalJobData := 7,
                                 failureReason := "network timeout" }] }
        "timeout" none none none).1
      = { queue := [], dlq := [{ id := "d1", originalJobData := 7,
                                 failureReason := "network timeout" }] } := by
  refine ⟨by decide, rfl, rfl⟩

/-- C8 amended: `retryFromDeadLetter` re-enqueues the original payload
verbatim as a fresh job (`attemptsMade = 0`) and removes the dead-letter
record; `retryByFailureReason` replays exactly the first
`maxJobs || 10` dead-letter records whose failure reason **equals** the given
string (not substring containment), appending one fresh job per record and
removing exactly those records. -/
theorem replay_semantics (st : DLQState α) (reason : String)
    (priority? delay? maxJobs? : Option Nat)
    (hnod : (st.dlq.map (·.id)).Nodup) :
    (∀ dlqJobId d, st.dlq.find? (fun d' => d'.id = dlqJobId) = some d →
      retryFromDeadLetter st dlqJobId priority? delay?
        = .ok ({ queue := st.queue ++ [replayJobOf d priority? delay?],
                 dlq := st.dlq.filter fun d' => ¬d'.id = dlqJobId },
               d.originalJobData)) ∧
    (retryByFailureReason st reason priority? delay? maxJobs?).2
      = ((st.dlq.filter fun d => d.failureReason = reason).take
          (jsOrNat maxJobs? 10)).map (·.originalJobData) ∧
    (retryByFailureReason st reason priority? delay? maxJobs?).1.queue
      = st.queue ++ ((st.dlq.filter fun d => d.failureReason = reason).take
          (jsOrNat maxJobs? 10)).map (replayJobOf · priority? delay?) ∧
    (retryByFailureReason st reason priority? delay? maxJobs?).1.dlq
      = st.dlq.filter fun d' =>
          ¬d'.id ∈ ((st.dlq.filter fun d => d.failureReason = reason).take
            (jsOrNat maxJobs? 10)).map (·.id) := by
  have hsub : ∀ d ∈ (st.dlq.filter fun d => d.failureReason = reason).take
      (jsOrNat maxJobs? 10), d ∈ st.dlq := by
    intro d hd
    exact List.mem_of_mem_filter (List.mem_of_mem_take hd)
  have hmsnod : (((st.dlq.filter fun d => d.failureReason = reason).take
      (jsOrNat maxJobs? 10)).map (·.id)).Nodup := by
    have hsl : (((st.dlq.filter fun d => d.failureReason = reason).take
        (jsOrNat maxJobs? 10)).map (·.id)).Sublist (st.dlq.map (·.id)) := by
      apply List.Sublist.map
      exact (List.take_sublist _ _).trans (List.filter_sublist _)
    exact hnod.sublist hsl
  have hfold := retryByReason_foldl priority? delay?
    ((st.dlq.filter fun d => d.failureReason = reason).take (jsOrNat maxJobs? 10))
    st [] hnod hsub hmsnod
  refine ⟨?_, ?_, ?_, ?_⟩
  · intro dlqJobId d hfound
    rw [retryFromDeadLetter, hfound, eraseP_eq_filter_of_nodup st.dlq dlqJobId hnod]
  · rw [retryByFailureReason, hfold]
    rfl
  · rw [retryByFailureReason, hfold]
  · rw [retryByFailureReason, hfold]

/-- Concrete instance of `replay_semantics`: of two records, only the one
whose reason equals the query is replayed, carrying its payload verbatim. -/
theorem replay_semantics_witness :
    (retryByFailureReason (α := Nat)
        { queue := [],
          dlq := [{ id := "d1", originalJobData := 7, failureReason := "API Error" },
                  { id := "d2", originalJobData := 8, failureReason := "other" }] }
        "API Error" none none none).2 = [7] := by
  have h := (replay_semantics (α := Nat)
      { queue := [],
        dlq := [{ id := "d1", originalJobData := 7, failureReason := "API Error" },
                { id := "d2", originalJobData := 8, failureReason := "other" }] }
      "API Error" none none none (by decide)).2.1
  rw [h]
  rfl

/-! ## Job codec (`queue/types.ts`)

The zod schemas are embedded as executable validators over inputs whose
fields are `Option`-valued (`none` = absent).  Each field is handled by a
combinator mirroring the zod modifier chain; `isUuidString` and
`isDatetimeString` model the string-format validators of the external zod
library. -/

/-- Hexadecimal digit (for the uuid format). -/
def isHexDigit (c : Char) : Bool :=
  c.isDigit || (decide ('a' ≤ c) && decide (c ≤ 'f')) ||
    (decide ('A' ≤ c) && decide (c ≤ 'F'))

/-- Models `z.string().uuid()` of the external zod library:
8-4-4-4-12 hexadecimal digits separated by dashes. -/
def isUuidString (s : String) : Bool :=
  match s.splitOn "-" with
  | [a, b, c, d, e] =>
    decide (a.length = 8) && decide (b.length = 4) && decide (c.length = 4) &&
    decide (d.length = 4) && decide (e.length = 12) &&
    (a ++ b ++ c ++ d ++ e).data.all isHexDigit
  | _ => false

/-- Models `z.string().datetime()` of the external zod library: an ISO-8601
UTC instant `YYYY-MM-DDTHH:MM:SS(.fraction)?Z`. -/
def isDatetimeString (s : String) : Bool :=
  let cs := s.data
  decide (20 ≤ cs.length) &&
  ([0, 1, 2, 3, 5, 6, 8, 9, 11, 12, 14, 15, 17, 18].all fun i =>
    (cs.getD i ' ').isDigit) &&
  decide (cs.getD 4 ' ' = '-') && decide (cs.getD 7 ' ' = '-') &&
  decide (cs.getD 10 ' ' = 'T') && decide (cs.getD 13 ' ' = ':') &&
  decide (cs.getD 16 ' ' = ':') && decide (cs.getLast? = some 'Z') &&
  (decide (cs.length = 20) ||
    (decide (cs.getD 19 ' ' = '.') && (cs.drop 20).dropLast.all Char.isDigit))

/-- Constraint on an optional field: trivially satisfied when absent. -/
def OptPred (p : α → Prop) : Option α → Prop
  | none => True
  | some a => p a

instance (p : α → Prop) [hp : DecidablePred p] (v : Option α) :
    Decidable (OptPred p v) :=
  match v with
  | none => .isTrue trivial
  | some a => hp a

/-- Constraint on a required field: the field is present and satisfies `p`. -/
def ReqPred (p : α → Prop) (v : Option α) : Prop :=
  ∃ a, v = some a ∧ p a

instance (p : α → Prop) [hp : DecidablePred p] (v : Option α) :
    Decidable (ReqPred p v) :=
  match v with
  | none => .isFalse (by rintro ⟨a, ha, -⟩; cases ha)
  | some a =>
    match hp a with
    | .isTrue h => .isTrue ⟨a, rfl, h⟩
    | .isFalse h => .isFalse (by rintro ⟨b, hb, hp⟩; cases hb; exact h hp)

/-! ### Field combinators (one per zod modifier chain) -/

/-- `z.string().min(minLen)` (required). -/
def fieldReqStr (minLen : Nat) (v : Option String) : Except Unit String :=
  match v with
  | none => .error ()
  | some s => if minLen ≤ s.length then .ok s else .error ()

/-- `z.enum(allowed)` (required). -/
def fieldEnumReq (allowed : List String) (v : Option String) : Except Unit String :=
  match v with
  | none => .error ()
  | some s => if s ∈ allowed then .ok s else .error ()

/-- `z.enum(allowed).default(d)`. -/
def fieldEnumD (allowed : List String) (d : String) (v : Option String) :
    Except Unit String :=
  match v with
  | none => .ok d
  | some s => if s ∈ allowed then .ok s else .error ()

/-- `z.number().int().min(lo).max(hi).default(d)`. -/
def fieldIntD (lo hi d : Int) (v : Option Int) : Except Unit Int :=
  match v with
  | none => .ok d
  | some n => if lo ≤ n ∧ n ≤ hi then .ok n else .error ()

/-- `z.number().int().min(lo).default(d)`. -/
def fieldIntMinD (lo d : Int) (v : Option Int) : Except Unit Int :=
  match v with
  | none => .ok d
  | some n => if lo ≤ n then .ok n else .error ()

/-- `z.array(<string with per-element check>).min(1).default(dflt)`. -/
def fieldListStrD (check : String → Bool) (dflt : List String)
    (v : Option (List String)) : Except Unit (List String) :=
  match v with
  | none => .ok dflt
  | some l => if 1 ≤ l.length ∧ ∀ c ∈ l, check c = true then .ok l else .error ()

/-- `z.array(<string with per-element check>).min(1)` (required). -/
def fieldListStrReq (check : String → Bool) (v : Option (List String)) :
    Except Unit (List String) :=
  match v with
  | none => .error ()
  | some l => if 1 ≤ l.length ∧ ∀ c ∈ l, check c = true then .ok l else .error ()

/-- `z.string().<format>().optional()` (e.g. `uuid`). -/
def fieldOptCheck (check : String → Bool) (v : Option String) :
    Except Unit (Option String) :=
  match v with
  | none => .ok none
  | some s => if check s = true then .ok (some s) else .error ()

/-- `z.string().default(d)` (no constraint on present strings). -/
def fieldStrD (d : String) (v : Option String) : Except Unit String :=
  .ok (v.getD d)

/-- `z.boolean().default(d)`. -/
def fieldBoolD (d : Bool) (v : Option Bool) : Except Unit Bool :=
  .ok (v.getD d)

/-- `z.string().optional()` (no constraint). -/
def fieldOptPass (v : Option String) : Except Unit (Option String) :=
  .ok v

/-- The `dateRange` object of the EXPORT schema. -/
structure DateRange where
  startDate : String
  endDate : String
  deriving Repr, DecidableEq

/-- `z.object({startDate: z.string().datetime(), endDate: …}).optional()`. -/
def fieldDateRange (v : Option DateRange) : Except Unit (Option DateRange) :=
  match v with
  | none => .ok none
  | some dr =>
    if isDatetimeString dr.startDate = true ∧ isDatetimeString dr.endDate = true then
      .ok (some dr)
    else .error ()

/-! ### Canonical forms of the combinators -/

@[simp]
theorem OptPred_none (p : α → Prop) : OptPred p none ↔ True := Iff.rfl

@[simp]
theorem OptPred_some (p : α → Prop) (a : α) : OptPred p (some a) ↔ p a := Iff.rfl

@[simp]
theorem ReqPred_none (p : α → Prop) : ReqPred p none ↔ False := by
  constructor
  · rintro ⟨a, ha, -⟩; cases ha
  · exact False.elim

@[simp]
theorem ReqPred_some (p : α → Prop) (a : α) : ReqPred p (some a) ↔ p a := by
  constructor
  · rintro ⟨b, hb, hp⟩; cases hb; exact hp
  · exact fun h => ⟨a, rfl, h⟩

theorem fieldReqStr_eq (minLen : Nat) (v : Option String) :
    fieldReqStr minLen v =
      if ReqPred (fun s => minLen ≤ s.length) v then .ok (v.getD "") else .error () := by
  cases v with
  | none => simp [fieldReqStr]
  | some s =>
    by_cases h : minLen ≤ s.length <;> simp [fieldReqStr, h]

theorem fieldEnumReq_eq (allowed : List String) (v : Option String) :
    fieldEnumReq allowed v =
      if ReqPred (fun s => s ∈ allowed) v then .ok (v.getD "") else .error () := by
  cases v with
  | none => simp [fieldEnumReq]
  | some s =>
    by_cases h : s ∈ allowed <;> simp [fieldEnumReq, h]

theorem fieldEnumD_eq (allowed : List String) (d : String) (v : Option String) :
    fieldEnumD allowed d v =
      if OptPred (fun s => s ∈ allowed) v then .ok (v.getD d) else .error () := by
  cases v with
  | none => simp [fieldEnumD]
  | some s =>
    by_cases h : s ∈ allowed <;> simp [fieldEnumD, h]

theorem fieldIntD_eq (lo hi d : Int) (v : Option Int) :
    fieldIntD lo hi d v =
      if OptPred (fun n => lo ≤ n ∧ n ≤ hi) v then .ok (v.getD d) else .error () := by
  cases v with
  | none => simp [fieldIntD]
  | some n =>
    by_cases h : lo ≤ n ∧ n ≤ hi <;> simp [fieldIntD, h]

theorem fieldIntMinD_eq (lo d : Int) (v : Option Int) :
    fieldIntMinD lo d v =
      if OptPred (fun n => lo ≤ n) v then .ok (v.getD d) else .error () := by
  cases v with
  | none => simp [fieldIntMinD]
  | some n =>
    by_cases h : lo ≤ n <;> simp [fieldIntMinD, h]

theorem fieldListStrD_eq (check : String → Bool) (dflt : List String)
    (v : Option (List String)) :
    fieldListStrD check dflt v =
      if OptPred (fun l => 1 ≤ l.length ∧ ∀ c ∈ l, check c = true) v then
        .ok (v.getD dflt)
      else .error () := by
  cases v with
  | none => simp [fieldListStrD]
  | some l =>
    by_cases h : 1 ≤ l.length ∧ ∀ c ∈ l, check c = true <;> simp [fieldListStrD, h]

theorem fieldListStrReq_eq (check : String → Bool) (v : Option (List String)) :
    fieldListStrReq check v =
      if ReqPred (fun l => 1 ≤ l.length ∧ ∀ c ∈ l, check c = true) v then
        .ok (v.getD [])
      else .error () := by
  cases v with
  | none => simp [fieldListStrReq]
  | some l =>
    by_cases h : 1 ≤ l.length ∧ ∀ c ∈ l, check c = true <;> simp [fieldListStrReq, h]

theorem fieldOptCheck_eq (check : String → Bool) (v : Option String) :
    fieldOptCheck check v =
      if OptPred (fun s => check s = true) v then .ok v else .error () := by
  cases v with
  | none => simp [fieldOptCheck]
  | some s =>
    by_cases h : check s = true <;> simp [fieldOptCheck, h]

theorem fieldDateRange_eq (v : Option DateRange) :
    fieldDateRange v =
      if OptPred (fun dr => isDatetimeString dr.startDate = true ∧
          isDatetimeString dr.endDate = true) v then .ok v else .error () := by
  cases v with
  | none => simp [fieldDateRange]
  | some dr =>
    by_cases h : isDatetimeString dr.startDate = true ∧ isDatetimeString dr.endDate = true <;>
      simp [fieldDateRange, h]

theorem ok_bind (a : A) (f : A → Except Unit B) :
    (Except.ok a : Except Unit A).bind f = f a := rfl

theorem if_ok_bind (c : Prop) [Decidable c] (a : A) (f : A → Except Unit B) :
    (if c then Except.ok a else Except.error ()).bind f
      = if c then f a else .error () := by
  split_ifs <;> rfl

theorem if_if_error (c₁ c₂ : Prop) [Decidable c₁] [Decidable c₂] (e : Except Unit B) :
    (if c₁ then (if c₂ then e else Except.error ()) else Except.error ())
      = if c₁ ∧ c₂ then e else .error () := by
  split_ifs with h1 h2 h3 <;> first | rfl | tauto

theorem if_ok_map (c : Prop) [Decidable c] (a : A) (g : A → B) :
    Except.map g (if c then Except.ok a else Except.error ())
      = if c then .ok (g a) else .error () := by
  split_ifs <;> rfl

/-! ### The five payload schemas -/

/-- Element check of `countries`: `z.string().length(2)`. -/
def countryCheck (c : String) : Bool := decide (c.length = 2)

/-- Element check of `sortMethods`: `z.enum(['recent', 'helpful'])`. -/
def sortMethodCheck (s : String) : Bool := decide (s = "recent") || decide (s = "helpful")

/-- Element check of `reviewIds`: `z.string().min(1)`. -/
def reviewIdCheck (s : String) : Bool := decide (1 ≤ s.length)

/-- Raw input to `ScrapeReviewsJobSchema.parse` (`none` = field absent). -/
structure ScrapeIn where
  appId : Option String
  countries : Option (List String)
  pages : Option Int
  sortMethods : Option (List String)
  throttleMs : Option Int
  correlationId : Option String
  priority : Option Int
  retryAttempts : Option Int
  delay : Option Int
  deriving Repr, DecidableEq

/-- Validated SCRAPE payload. -/
structure ScrapeOut where
  appId : String
  countries : List String
  pages : Int
  sortMethods : List String
  throttleMs : Int
  correlationId : Option String
  priority : Int
  retryAttempts : Int
  delay : Int
  deriving Repr, DecidableEq

/-- `ScrapeReviewsJobSchema.parse` (`types.ts` lines 30–37, merged with
`BaseJobConfigSchema` lines 19–23). -/
def validateScrapeReviews (x : ScrapeIn) : Except Unit ScrapeOut :=
  (fieldReqStr 1 x.appId).bind fun appId =>
  (fieldListStrD countryCheck ["us"] x.countries).bind fun countries =>
  (fieldIntD 1 10 5 x.pages).bind fun pages =>
  (fieldListStrD sortMethodCheck ["recent"] x.sortMethods).bind fun sortMethods =>
  (fieldIntD 0 5000 500 x.throttleMs).bind fun throttleMs =>
  (fieldOptCheck isUuidString x.correlationId).bind fun correlationId =>
  (fieldIntD 1 10 5 x.priority).bind fun priority =>
  (fieldIntD 0 5 3 x.retryAttempts).bind fun retryAttempts =>
  (fieldIntMinD 0 0 x.delay).bind fun delay =>
  .ok { appId := appId, countries := countries, pages := pages,
        sortMethods := sortMethods, throttleMs := throttleMs,
        correlationId := correlationId, priority := priority,
        retryAttempts := retryAttempts, delay := delay }

/-- All constraints of the SCRAPE schema. -/
def ScrapeValid (x : ScrapeIn) : Prop :=
  ReqPred (fun s => 1 ≤ s.length) x.appId ∧
  OptPred (fun l => 1 ≤ l.length ∧ ∀ c ∈ l, countryCheck c = true) x.countries ∧
  OptPred (fun n => 1 ≤ n ∧ n ≤ 10) x.pages ∧
  OptPred (fun l => 1 ≤ l.length ∧ ∀ c ∈ l, sortMethodCheck c = true) x.sortMethods ∧
  OptPred (fun n => 0 ≤ n ∧ n ≤ 5000) x.throttleMs ∧
  OptPred (fun s => isUuidString s = true) x.correlationId ∧
  OptPred (fun n => 1 ≤ n ∧ n ≤ 10) x.priority ∧
  OptPred (fun n => 0 ≤ n ∧ n ≤ 5) x.retryAttempts ∧
  OptPred (fun n => 0 ≤ n) x.delay

instance (x : ScrapeIn) : Decidable (ScrapeValid x) := by
  unfold ScrapeValid; infer_instance

/-- The SCRAPE payload with defaults applied and every present field taken
verbatim — in particular `countries` is NOT uppercased. -/
def scrapeWithDefaults (x : ScrapeIn) : ScrapeOut :=
  { appId := x.appId.getD "", countries := x.countries.getD ["us"],
    pages := x.pages.getD 5, sortMethods := x.sortMethods.getD ["recent"],
    throttleMs := x.throttleMs.getD 500, correlationId := x.correlationId,
    priority := x.priority.getD 5, retryAttempts := x.retryAttempts.getD 3,
    delay := x.delay.getD 0 }

theorem validateScrapeReviews_eq (x : ScrapeIn) :
    validateScrapeReviews x =
      if ScrapeValid x then .ok (scrapeWithDefaults x) else .error () := by
  rw [validateScrapeReviews]
  simp only [fieldReqStr_eq, fieldListStrD_eq, fieldIntD_eq, fieldIntMinD_eq,
    fieldOptCheck_eq, if_ok_bind, ok_bind, if_if_error]
  rfl

/-- Raw input to `LabelReviewsJobSchema.parse`. -/
structure LabelIn where
  reviewIds : Option (List String)
  batchSize : Option Int
  model : Option String
  taxonomyPath : Option String
  correlationId : Option String
  priority : Option Int
  retryAttempts : Option Int
  delay : Option Int
  deriving Repr, DecidableEq

/-- Validated LABEL payload. -/
structure LabelOut where
  reviewIds : List String
  batchSize : Int
  model : String
  taxonomyPath : Option String
  correlationId : Option String
  priority : Int
  retryAttempts : Int
  delay : Int
  deriving Repr, DecidableEq

/-- `LabelReviewsJobSchema.parse` (`types.ts` lines 44–50). -/
def validateLabelReviews (x : LabelIn) : Except Unit LabelOut :=
  (fieldListStrReq reviewIdCheck x.reviewIds).bind fun reviewIds =>
  (fieldIntD 1 100 20 x.batchSize).bind fun batchSize =>
  (fieldStrD "gpt-4.1-mini" x.model).bind fun model =>
  (fieldOptPass x.taxonomyPath).bind fun taxonomyPath =>
  (fieldOptCheck isUuidString x.correlationId).bind fun correlationId =>
  (fieldIntD 1 10 5 x.priority).bind fun priority =>
  (fieldIntD 0 5 3 x.retryAttempts).bind fun retryAttempts =>
  (fieldIntMinD 0 0 x.delay).bind fun delay =>
  .ok { reviewIds := reviewIds, batchSize := batchSize, model := model,
        taxonomyPath := taxonomyPath, correlationId := correlationId,
        priority := priority, retryAttempts := retryAttempts, delay := delay }

def LabelValid (x : LabelIn) : Prop :=
  ReqPred (fun l => 1 ≤ l.length ∧ ∀ c ∈ l, reviewIdCheck c = true) x.reviewIds ∧
  OptPred (fun n => 1 ≤ n ∧ n ≤ 100) x.batchSize ∧
  OptPred (fun s => isUuidString s = true) x.correlationId ∧
  OptPred (fun n => 1 ≤ n ∧ n ≤ 10) x.priority ∧
  OptPred (fun n => 0 ≤ n ∧ n ≤ 5) x.retryAttempts ∧
  OptPred (fun n => 0 ≤ n) x.delay

instance (x : LabelIn) : Decidable (LabelValid x) := by
  unfold LabelValid; infer_instance

def labelWithDefaults (x : LabelIn) : LabelOut :=
  { reviewIds := x.reviewIds.getD [], batchSize := x.batchSize.getD 20,
    model := x.model.getD "gpt-4.1-mini", taxonomyPath := x.taxonomyPath,
    correlationId := x.correlationId, priority := x.priority.getD 5,
    retryAttempts := x.retryAttempts.getD 3, delay := x.delay.getD 0 }

theorem validateLabelReviews_eq (x : LabelIn) :
    validateLabelReviews x =
      if LabelValid x then .ok (labelWithDefaults x) else .error () := by
  rw [validateLabelReviews]
  simp only [fieldListStrReq_eq, fieldIntD_eq, fieldIntMinD_eq, fieldStrD,
    fieldOptPass, fieldOptCheck_eq, if_ok_bind, ok_bind, if_if_error]
  rfl

/-- Raw input to `ProcessResultsJobSchema.parse`. -/
structure ProcessResultsIn where
  sourceJobId : Option String
  resultType : Option String
  outputFormat : Option String
  correlationId : Option String
  priority : Option Int
  retryAttempts : Option Int
  delay : Option Int
  deriving Repr, DecidableEq

/-- Validated PROCESS_RESULTS payload. -/
structure ProcessResultsOut where
  sourceJobId : String
  resultType : String
  outputFormat : String
  correlationId : Option String
  priority : Int
  retryAttempts : Int
  delay : Int
  deriving Repr, DecidableEq

/-- `ProcessResultsJobSchema.parse` (`types.ts` lines 57–62). -/
def validateProcessResults (x : ProcessResultsIn) : Except Unit ProcessResultsOut :=
  (fieldReqStr 1 x.sourceJobId).bind fun sourceJobId =>
  (fieldEnumReq ["scraped_reviews", "labeled_reviews", "exported_data"]
    x.resultType).bind fun resultType =>
  (fieldEnumD ["csv", "json", "database"] "database" x.outputFormat).bind fun outputFormat =>
  (fieldOptCheck isUuidString x.correlationId).bind fun correlationId =>
  (fieldIntD 1 10 5 x.priority).bind fun priority =>
  (fieldIntD 0 5 3 x.retryAttempts).bind fun retryAttempts =>
  (fieldIntMinD 0 0 x.delay).bind fun delay =>
  .ok { sourceJobId := sourceJobId, resultType := resultType,
        outputFormat := outputFormat, correlationId := correlationId,
        priority := priority, retryAttempts := retryAttempts, delay := delay }

def ProcessResultsValid (x : ProcessResultsIn) : Prop :=
  ReqPred (fun s => 1 ≤ s.length) x.sourceJobId ∧
  ReqPred (fun s => s ∈ ["scraped_reviews", "labeled_reviews", "exported_data"])
    x.resultType ∧
  OptPred (fun s => s ∈ ["csv", "json", "database"]) x.outputFormat ∧
  OptPred (fun s => isUuidString s = true) x.correlationId ∧
  OptPred (fun n => 1 ≤ n ∧ n ≤ 10) x.priority ∧
  OptPred (fun n => 0 ≤ n ∧ n ≤ 5) x.retryAttempts ∧
  OptPred (fun n => 0 ≤ n) x.delay

instance (x : ProcessResultsIn) : Decidable (ProcessResultsValid x) := by
  unfold ProcessResultsValid; infer_instance

def processResultsWithDefaults (x : ProcessResultsIn) : ProcessResultsOut :=
  { sourceJobId := x.sourceJobId.getD "", resultType := x.resultType.getD "",
    outputFormat := x.outputFormat.getD "database", correlationId := x.correlationId,
    priority := x.priority.getD 5, retryAttempts := x.retryAttempts.getD 3,
    delay := x.delay.getD 0 }

theorem validateProcessResults_eq (x : ProcessResultsIn) :
    validateProcessResults x =
      if ProcessResultsValid x then .ok (processResultsWithDefaults x)
      else .error () := by
  rw [validateProcessResults]
  simp only [fieldReqStr_eq, fieldEnumReq_eq, fieldEnumD_eq, fieldIntD_eq,
    fieldIntMinD_eq, fieldOptCheck_eq, if_ok_bind, ok_bind, if_if_error]
  rfl

/-- Raw input to `CleanupDataJobSchema.parse`. -/
structure CleanupIn where
  targetType : Option String
  olderThanDays : Option Int
  dryRun : Option Bool
  correlationId : Option String
  priority : Option Int
  retryAttempts : Option Int
  delay : Option Int
  deriving Repr, DecidableEq

/-- Validated CLEANUP payload. -/
structure CleanupOut where
  targetType : String
  olderThanDays : Int
  dryRun : Bool
  correlationId : Option String
  priority : Int
  retryAttempts : Int
  delay : Int
  deriving Repr, DecidableEq

/-- `CleanupDataJobSchema.parse` (`types.ts` lines 69–74). -/
def validateCleanupData (x : CleanupIn) : Except Unit CleanupOut :=
  (fieldEnumReq ["old_reviews", "failed_jobs", "temp_files"] x.targetType).bind
    fun targetType =>
  (fieldIntMinD 1 30 x.olderThanDays).bind fun olderThanDays =>
  (fieldBoolD false x.dryRun).bind fun dryRun =>
  (fieldOptCheck isUuidString x.correlationId).bind fun correlationId =>
  (fieldIntD 1 10 5 x.priority).bind fun priority =>
  (fieldIntD 0 5 3 x.retryAttempts).bind fun retryAttempts =>
  (fieldIntMinD 0 0 x.delay).bind fun delay =>
  .ok { targetType := targetType, olderThanDays := olderThanDays, dryRun := dryRun,
        correlationId := correlationId, priority := priority,
        retryAttempts := retryAttempts, delay := delay }

def CleanupValid (x : CleanupIn) : Prop :=
  ReqPred (fun s => s ∈ ["old_reviews", "failed_jobs", "temp_files"]) x.targetType ∧
  OptPred (fun n => 1 ≤ n) x.olderThanDays ∧
  OptPred (fun s => isUuidString s = true) x.correlationId ∧
  OptPred (fun n => 1 ≤ n ∧ n ≤ 10) x.priority ∧
  OptPred (fun n => 0 ≤ n ∧ n ≤ 5) x.retryAttempts ∧
  OptPred (fun n => 0 ≤ n) x.delay

instance (x : CleanupIn) : Decidable (CleanupValid x) := by
  unfold CleanupValid; infer_instance

def cleanupWithDefaults (x : CleanupIn) : CleanupOut :=
  { targetType := x.targetType.getD "", olderThanDays := x.olderThanDays.getD 30,
    dryRun := x.dryRun.getD false, correlationId := x.correlationId,
    priority := x.priority.getD 5, retryAttempts := x.retryAttempts.getD 3,
    delay := x.delay.getD 0 }

theorem validateCleanupData_eq (x : CleanupIn) :
    validateCleanupData x =
      if CleanupValid x then .ok (cleanupWithDefaults x) else .error () := by
  rw [validateCleanupData]
  simp only [fieldEnumReq_eq, fieldIntMinD_eq, fieldBoolD, fieldIntD_eq,
    fieldOptCheck_eq, if_ok_bind, ok_bind, if_if_error]
  rfl

/-- Raw input to `ExportDataJobSchema.parse`. -/
structure ExportIn where
  appId : Option String
  format : Option String
  includeLabels : Option Bool
  dateRange : Option DateRange
  correlationId : Option String
  priority : Option Int
  retryAttempts : Option Int
  delay : Option Int
  deriving Repr, DecidableEq

/-- Validated EXPORT payload. -/
structure ExportOut where
  appId : String
  format : String
  includeLabels : Bool
  dateRange : Option DateRange
  correlationId : Option String
  priority : Int
  retryAttempts : Int
  delay : Int
  deriving Repr, DecidableEq

/-- `ExportDataJobSchema.parse` (`types.ts` lines 81–90). -/
def validateExportData (x : ExportIn) : Except Unit ExportOut :=
  (fieldReqStr 1 x.appId).bind fun appId =>
  (fieldEnumD ["csv", "json", "xlsx"] "csv" x.format).bind fun format =>
  (fieldBoolD true x.includeLabels).bind fun includeLabels =>
  (fieldDateRange x.dateRange).bind fun dateRange =>
  (fieldOptCheck isUuidString x.correlationId).bind fun correlationId =>
  (fieldIntD 1 10 5 x.priority).bind fun priority =>
  (fieldIntD 0 5 3 x.retryAttempts).bind fun retryAttempts =>
  (fieldIntMinD 0 0 x.delay).bind fun delay =>
  .ok { appId := appId, format := format, includeLabels := includeLabels,
        dateRange := dateRange, correlationId := correlationId,
        priority := priority, retryAttempts := retryAttempts, delay := delay }

def ExportValid (x : ExportIn) : Prop :=
  ReqPred (fun s => 1 ≤ s.length) x.appId ∧
  OptPred (fun s => s ∈ ["csv", "json", "xlsx"]) x.format ∧
  OptPred (fun dr => isDatetimeString dr.startDate = true ∧
    isDatetimeString dr.endDate = true) x.dateRange ∧
  OptPred (fun s => isUuidString s = true) x.correlationId ∧
  OptPred (fun n => 1 ≤ n ∧ n ≤ 10) x.priority ∧
  OptPred (fun n => 0 ≤ n ∧ n ≤ 5) x.retryAttempts ∧
  OptPred (fun n => 0 ≤ n) x.delay

instance (x : ExportIn) : Decidable (ExportValid x) := by
  unfold ExportValid; infer_instance

def exportWithDefaults (x : ExportIn) : ExportOut :=
  { appId := x.appId.getD "", format := x.format.getD "csv",
    includeLabels := x.includeLabels.getD true, dateRange := x.dateRange,
    correlationId := x.correlationId, priority := x.priority.getD 5,
    retryAttempts := x.retryAttempts.getD 3, delay := x.delay.getD 0 }

theorem validateExportData_eq (x : ExportIn) :
    validateExportData x =
      if ExportValid x then .ok (exportWithDefaults x) else .error () := by
  rw [validateExportData]
  simp only [fieldReqStr_eq, fieldEnumD_eq, fieldBoolD, fieldDateRange_eq,
    fieldIntD_eq, fieldIntMinD_eq, fieldOptCheck_eq, if_ok_bind, ok_bind, if_if_error]
  rfl

/-! ### The kind-dispatching codec (`getJobSchema` / `validateJobPayload`) -/

/-- An unvalidated payload together with its job kind. -/
inductive JobPayloadIn
  | scrape (x : ScrapeIn)
  | label (x : LabelIn)
  | processResults (x : ProcessResultsIn)
  | cleanup (x : CleanupIn)
  | exportData (x : ExportIn)
  deriving Repr, DecidableEq

/-- A validated payload. -/
inductive JobPayloadOut
  | scrape (x : ScrapeOut)
  | label (x : LabelOut)
  | processResults (x : ProcessResultsOut)
  | cleanup (x : CleanupOut)
  | exportData (x : ExportOut)
  deriving Repr, DecidableEq

/-- `validateJobPayload` (`types.ts` lines 167–173): select the schema by
kind (`getJobSchema`) and `parse` the payload, throwing `InvalidPayload`
(a `ZodError`) on any constraint violation. -/
def validateJobPayload : JobPayloadIn → Except Unit JobPayloadOut
  | .scrape x => (validateScrapeReviews x).map .scrape
  | .label x => (validateLabelReviews x).map .label
  | .processResults x => (validateProcessResults x).map .processResults
  | .cleanup x => (validateCleanupData x).map .cleanup
  | .exportData x => (validateExportData x).map .exportData

/-- C7 amended: for every job kind, validation fails exactly when some schema
constraint is violated, and on success the validated payload is the input
with the documented defaults filled in and every present field taken
verbatim — in particular `countries` is passed through unchanged, NOT coerced
to uppercase (uppercasing happens later, per review, in the scraper). -/
theorem jobCodec_defaults_verbatim :
    (∀ x, validateJobPayload (.scrape x) =
      if ScrapeValid x then .ok (.scrape (scrapeWithDefaults x)) else .error ()) ∧
    (∀ x, validateJobPayload (.label x) =
      if LabelValid x then .ok (.label (labelWithDefaults x)) else .error ()) ∧
    (∀ x, validateJobPayload (.processResults x) =
      if ProcessResultsValid x then .ok (.processResults (processResultsWithDefaults x))
      else .error ()) ∧
    (∀ x, validateJobPayload (.cleanup x) =
      if CleanupValid x then .ok (.cleanup (cleanupWithDefaults x)) else .error ()) ∧
    (∀ x, validateJobPayload (.exportData x) =
      if ExportValid x then .ok (.exportData (exportWithDefaults x)) else .error ()) ∧
    (∀ x, (validateJobPayload (.scrape x)).toOption.map
        (fun out => match out with
          | .scrape o => o.countries
          | _ => [])
      = if ScrapeValid x then some (x.countries.getD ["us"]) else none) := by
  refine ⟨?_, ?_, ?_, ?_, ?_, ?_⟩
  · intro x
    rw [validateJobPayload, validateScrapeReviews_eq, if_ok_map]
  · intro x
    rw [validateJobPayload, validateLabelReviews_eq, if_ok_map]
  · intro x
    rw [validateJobPayload, validateProcessResults_eq, if_ok_map]
  · intro x
    rw [validateJobPayload, validateCleanupData_eq, if_ok_map]
  · intro x
    rw [validateJobPayload, validateExportData_eq, if_ok_map]
  · intro x
    rw [validateJobPayload, validateScrapeReviews_eq, if_ok_map]
    by_cases h : ScrapeValid x
    · rw [if_pos h, if_pos h]
      rfl
    · rw [if_neg h, if_neg h]
      rfl

/-- C7 counterexample, refuting the claim as stated: validating a SCRAPE
payload with `countries = ["us"]` succeeds and keeps `["us"]` verbatim, while
the claim requires the countries field to come out uppercased (`["US"]`). -/
theorem codec_countries_not_uppercased :
    validateJobPayload
        (.scrape { appId := some "123", countries := some ["us"], pages := none,
                   sortMethods := none, throttleMs := none, correlationId := none,
                   priority := none, retryAttempts := none, delay := none })
      = .ok (.scrape { appId := "123", countries := ["us"], pages := 5,
                       sortMethods := ["recent"], throttleMs := 500,
                       correlationId := none, priority := 5, retryAttempts := 3,
                       delay := 0 }) ∧
    (["us"] : List String) ≠ ["US"] := by
  refine ⟨by decide, by decide⟩

end ReviewScraper
